import Mathlib

set_option maxRecDepth 100000

/-!
Verification of the someip repository: a shallow embedding of the
SOME/IP base-protocol codec, the SOME/IP-SD codec with its entry and
option sub-structures, the bit reader, and the client/session
allocator, together with theorems settling the specification claims.

Machine integers are modelled as `Nat`; Python `bytes` values as
`List Nat` with entries below 256; `bitarray` values as `List Bool`
(big-endian bit order, as produced by bitarray's default endianness).
Fallible Python code (raising `ValueError` / `OverflowError` /
`KeyError`) is modelled with `Except Err`.
-/

/-- Errors raised by the embedded code.  Each constructor corresponds to a
concrete raise site (or library exception) in the source. -/
inductive Err where
  | fieldRange (name : String)
  | invalidHeader
  | invalidEntryLength
  | invalidIPv4OptionLength
  | invalidIPv6OptionLength
  | invalidAddress
  | indexOutOfRange
  | overflow
  | emptyBitarray
  | keyError
deriving DecidableEq, Repr

deriving instance DecidableEq for Except

/-- Interpretation of a big-endian bitarray as an unsigned integer, as done by
bitarray.util.ba2int for a non-empty big-endian array. -/
def bitsToNat (bs : List Bool) : Nat :=
  bs.foldl (fun acc b => 2 * acc + b.toNat) 0

/-- Big-endian bits of a natural number, width first: the list of w bits of v,
most significant first (the value produced by bitarray.util.int2ba for v < 2 ^ w). -/
def natToBitsBE : Nat → Nat → List Bool
  | 0, _ => []
  | w + 1, v => natToBitsBE w (v / 2) ++ [v % 2 == 1]

/-- Model of bitarray.util.ba2int: raises ValueError on an empty bitarray. -/
def ba2int (bs : List Bool) : Except Err Nat :=
  if bs.isEmpty then .error .emptyBitarray else .ok (bitsToNat bs)

/-- Model of the Python expression int(x.to01(), 2) used by the eventgroup
entry decoder: identical semantics to ba2int (int of an empty string raises). -/
def intTo01 (bs : List Bool) : Except Err Nat :=
  if bs.isEmpty then .error .emptyBitarray else .ok (bitsToNat bs)

/-- Model of bitarray.util.int2ba(v, length := w): OverflowError unless v fits. -/
def int2ba (v w : Nat) : Except Err (List Bool) :=
  if v < 2 ^ w then .ok (natToBitsBE w v) else .error .overflow

/-- Model of the bits contributed by packet.frombytes(v.to_bytes(n, "big")):
OverflowError unless v fits in n bytes, otherwise the 8*n big-endian bits. -/
def toBytesBits (v n : Nat) : Except Err (List Bool) :=
  if v < 256 ^ n then .ok (natToBitsBE (8 * n) v) else .error .overflow

/-- The eight bits of a byte, most significant first. -/
def byteToBits (b : Nat) : List Bool :=
  natToBitsBE 8 (b % 256)

/-- Model of bitarray.frombytes: every byte contributes its eight bits. -/
def bytesToBits (s : List Nat) : List Bool :=
  (s.map byteToBits).flatten

/-- Model of bitarray.tobytes: groups bits into bytes, eight at a time,
padding the final partial byte with zero bits at the end. -/
def bitsToBytes : List Bool → List Nat
  | [] => []
  | b1 :: b2 :: b3 :: b4 :: b5 :: b6 :: b7 :: b8 :: rest =>
    bitsToNat [b1, b2, b3, b4, b5, b6, b7, b8] :: bitsToBytes rest
  | bs => [bitsToNat (bs ++ List.replicate (8 - bs.length) false)]

/-- Model of the Python slice x[a:b] (for nonnegative a, b): clamping, never
raising. -/
def pySlice (xs : List α) (a b : Nat) : List α :=
  (xs.drop a).take (b - a)

namespace Utils

/-- State of utils/bit_reader.py BitReader: the wrapped bits and the index. -/
structure BitReader where
  bits : List Bool
  index : Nat
deriving DecidableEq, Repr

/-- The index setter of BitReader: raises ValueError("Index out of range") when
the new value lies outside the interval from 0 to the bit length.  (A negative
value cannot arise for a Nat index; all call sites pass nonnegative values.) -/
def BitReader.setIndex (r : BitReader) (value : Nat) : Except Err BitReader :=
  if value > r.bits.length then .error .indexOutOfRange
  else .ok { r with index := value }

/-- BitReader.read: slices the next bits, then advances the index through the
checked setter; if the setter raises, the slice is discarded and the reader
state is unchanged. -/
def BitReader.read (r : BitReader) (length : Nat) :
    Except Err (List Bool × BitReader) :=
  let value := pySlice r.bits r.index (r.index + length)
  (r.setIndex (r.index + length)).map fun r2 => (value, r2)

end Utils

namespace Someip

/-- Bit widths from protocol/someip/length.py (the Length IntEnum). -/
def Length.SERVICE_ID : Nat := 16

def Length.METHOD_ID : Nat := 16

def Length.LENGTH : Nat := 32

def Length.CLIENT_ID : Nat := 16

def Length.SESSION_ID : Nat := 16

def Length.PROTOCOL_VERSION : Nat := 8

def Length.INTERFACE_VERSION : Nat := 8

def Length.MESSAGE_TYPE : Nat := 8

def Length.RETURN_CODE : Nat := 8

def Length.PAYLOAD : Int := -1

/-- The base-protocol packet of protocol/someip/packet.py. -/
structure Packet where
  service_id : Nat
  method_id : Nat
  client_id : Nat
  session_id : Nat
  protocol_version : Nat
  interface_version : Nat
  message_type : Nat
  return_code : Nat
  payload : List Nat
deriving DecidableEq, Repr

/-- Packet.__init__ of the base protocol: it only assigns the attributes (and
coerces the payload with bytes(payload)); it performs no validation at all, so
it never raises for integer field values. -/
def Packet.init (service_id method_id client_id session_id protocol_version
    interface_version message_type return_code : Nat) (payload : List Nat) :
    Except Err Packet :=
  .ok ⟨service_id, method_id, client_id, session_id, protocol_version,
    interface_version, message_type, return_code, payload⟩

/-- Packet.expected_header_length: the sum of the header field bit widths. -/
def Packet.expectedHeaderLength : Nat :=
  Length.SERVICE_ID + Length.METHOD_ID + Length.LENGTH + Length.CLIENT_ID +
    Length.SESSION_ID + Length.PROTOCOL_VERSION + Length.INTERFACE_VERSION +
    Length.MESSAGE_TYPE + Length.RETURN_CODE

/-- The length property of the base packet: expected_header_length() // 8 plus
the payload length (i.e. 16 + len(payload)). -/
def Packet.length (p : Packet) : Nat :=
  Packet.expectedHeaderLength / 8 + p.payload.length

/-- Packet.encode of the base protocol: int2ba for every header field in
declaration order, then tobytes, then the raw payload appended. -/
def Packet.encode (p : Packet) : Except Err (List Nat) := do
  let b1 ← int2ba p.service_id Length.SERVICE_ID
  let b2 ← int2ba p.method_id Length.METHOD_ID
  let b3 ← int2ba p.length Length.LENGTH
  let b4 ← int2ba p.client_id Length.CLIENT_ID
  let b5 ← int2ba p.session_id Length.SESSION_ID
  let b6 ← int2ba p.protocol_version Length.PROTOCOL_VERSION
  let b7 ← int2ba p.interface_version Length.INTERFACE_VERSION
  let b8 ← int2ba p.message_type Length.MESSAGE_TYPE
  let b9 ← int2ba p.return_code Length.RETURN_CODE
  return bitsToBytes (b1 ++ b2 ++ b3 ++ b4 ++ b5 ++ b6 ++ b7 ++ b8 ++ b9) ++
    p.payload

/-- Packet.decode of the base protocol: checks the header bit length, then
reads each field through a BitReader (discarding the on-wire length field) and
treats the remaining bits as the payload. -/
def Packet.decode (series : List Nat) : Except Err Packet := do
  let bits := bytesToBits series
  if bits.length < Packet.expectedHeaderLength then
    throw .invalidHeader
  let r0 : Utils.BitReader := ⟨bits, 0⟩
  let (service_id, r1) ← r0.read Length.SERVICE_ID
  let (method_id, r2) ← r1.read Length.METHOD_ID
  let (_len, r3) ← r2.read Length.LENGTH
  let (client_id, r4) ← r3.read Length.CLIENT_ID
  let (session_id, r5) ← r4.read Length.SESSION_ID
  let (protocol_version, r6) ← r5.read Length.PROTOCOL_VERSION
  let (interface_version, r7) ← r6.read Length.INTERFACE_VERSION
  let (message_type, r8) ← r7.read Length.MESSAGE_TYPE
  let (return_code, r9) ← r8.read Length.RETURN_CODE
  let payload := pySlice bits r9.index bits.length
  let sid ← ba2int service_id
  let mid ← ba2int method_id
  let cid ← ba2int client_id
  let ssid ← ba2int session_id
  let pv ← ba2int protocol_version
  let iv ← ba2int interface_version
  let mt ← ba2int message_type
  let rc ← ba2int return_code
  Packet.init sid mid cid ssid pv iv mt rc (bitsToBytes payload)

/-- Validity of a base packet value in the sense of the specification: every
fixed-width field fits its declared width, the payload consists of bytes, and
the derived length field fits 32 bits (so int2ba does not overflow). -/
def Packet.Valid (p : Packet) : Prop :=
  p.service_id < 2 ^ 16 ∧ p.method_id < 2 ^ 16 ∧ p.client_id < 2 ^ 16 ∧
    p.session_id < 2 ^ 16 ∧ p.protocol_version < 2 ^ 8 ∧
    p.interface_version < 2 ^ 8 ∧ p.message_type < 2 ^ 8 ∧
    p.return_code < 2 ^ 8 ∧ (∀ b ∈ p.payload, b < 256) ∧ p.length < 2 ^ 32

instance (p : Packet) : Decidable p.Valid := by
  unfold Packet.Valid
  infer_instance

end Someip

/-- The shared __validate_bit helper, integer branch: the value must lie
between 0 and 2 ^ bits - 1 (the lower bound is vacuous for Nat). -/
def validateBitInt (name : String) (value bits : Nat) : Except Err Unit :=
  let max_value := 2 ^ bits - 1
  if value ≤ max_value then .ok () else .error (.fieldRange name)

/-- The shared __validate_bit helper, bitarray branch: the bitarray must have
exactly the declared number of bits. -/
def validateBitArr (name : String) (value : List Bool) (bits : Nat) :
    Except Err Unit :=
  if value.length = bits then .ok () else .error (.fieldRange name)

namespace SomeipSd

/-- The service-discovery packet of protocol/someipsd/packet.py. -/
structure Packet where
  service_id : Nat
  method_id : Nat
  client_id : Nat
  session_id : Nat
  protocol_version : Nat
  interface_version : Nat
  message_type : Nat
  return_code : Nat
  flags : Nat
  entries_array : List Nat
  options_array : List Nat
deriving DecidableEq, Repr

/-- Packet.__init__ of the service-discovery protocol: validates the bit width
of every integer field, then assigns. -/
def Packet.init (service_id method_id client_id session_id protocol_version
    interface_version message_type return_code flags : Nat)
    (entries_array options_array : List Nat) : Except Err Packet := do
  _ ← validateBitInt "Service ID" service_id 16
  _ ← validateBitInt "Method ID" method_id 16
  _ ← validateBitInt "Client ID" client_id 16
  _ ← validateBitInt "Session ID" session_id 16
  _ ← validateBitInt "Protocol Version" protocol_version 8
  _ ← validateBitInt "Interface Version" interface_version 8
  _ ← validateBitInt "Message Type" message_type 8
  _ ← validateBitInt "Return Code" return_code 8
  _ ← validateBitInt "Flags" flags 8
  return ⟨service_id, method_id, client_id, session_id, protocol_version,
    interface_version, message_type, return_code, flags, entries_array,
    options_array⟩

/-- The length_of_entries_array property. -/
def Packet.length_of_entries_array (p : Packet) : Nat :=
  p.entries_array.length

/-- The length_of_options_array property. -/
def Packet.length_of_options_array (p : Packet) : Nat :=
  p.options_array.length

/-- The length property of the service-discovery packet: 20 plus the lengths
of the two arrays. -/
def Packet.length (p : Packet) : Nat :=
  20 + p.length_of_entries_array + p.length_of_options_array

/-- Packet.encode of the service-discovery protocol: header fields, 24 zero
reserved bits, then each array preceded by its 32-bit byte length. -/
def Packet.encode (p : Packet) : Except Err (List Nat) := do
  let b1 ← toBytesBits p.service_id (16 / 8)
  let b2 ← toBytesBits p.method_id (16 / 8)
  let b3 ← toBytesBits p.length (32 / 8)
  let b4 ← toBytesBits p.client_id (16 / 8)
  let b5 ← toBytesBits p.session_id (16 / 8)
  let b6 ← toBytesBits p.protocol_version (8 / 8)
  let b7 ← toBytesBits p.interface_version (8 / 8)
  let b8 ← toBytesBits p.message_type (8 / 8)
  let b9 ← toBytesBits p.return_code (8 / 8)
  let b10 ← toBytesBits p.flags (8 / 8)
  let b11 := List.replicate 24 false
  let b12 ← toBytesBits p.length_of_entries_array (32 / 8)
  let b13 := bytesToBits p.entries_array
  let b14 ← toBytesBits p.length_of_options_array (32 / 8)
  let b15 := bytesToBits p.options_array
  return bitsToBytes (b1 ++ b2 ++ b3 ++ b4 ++ b5 ++ b6 ++ b7 ++ b8 ++ b9 ++
    b10 ++ b11 ++ b12 ++ b13 ++ b14 ++ b15)

/-- Packet.decode of the service-discovery protocol, exactly as written in the
source: rejects any input whose byte length is not exactly 28 (raising
ValueError("Invalid entry length")), skips the on-wire length field, and adds
the declared array byte lengths directly to bit offsets when slicing. -/
def Packet.decode (series : List Nat) : Except Err Packet := do
  if series.length ≠ 28 then
    throw .invalidEntryLength
  let packet := bytesToBits series
  let service_id ← ba2int (pySlice packet 0 16)
  let method_id ← ba2int (pySlice packet 16 32)
  let client_id ← ba2int (pySlice packet 64 80)
  let session_id ← ba2int (pySlice packet 80 96)
  let protocol_version ← ba2int (pySlice packet 96 104)
  let interface_version ← ba2int (pySlice packet 104 112)
  let message_type ← ba2int (pySlice packet 112 120)
  let return_code ← ba2int (pySlice packet 120 128)
  let flags ← ba2int (pySlice packet 128 136)
  let length_of_entries_array ← ba2int (pySlice packet 160 192)
  let entries_array := bitsToBytes
    (pySlice packet 192 (192 + length_of_entries_array))
  let length_of_options_array ← ba2int (pySlice packet
    (192 + length_of_entries_array) (192 + length_of_entries_array + 32))
  let options_array := bitsToBytes (pySlice packet
    (192 + length_of_entries_array + 32)
    (192 + length_of_entries_array + 32 + length_of_options_array))
  Packet.init service_id method_id client_id session_id protocol_version
    interface_version message_type return_code flags entries_array
    options_array

end SomeipSd

/-- The service entry of protocol/someipsd/entry/service_entry.py. -/
structure ServiceEntry where
  type_field : Nat
  index_first_option_run : Nat
  index_second_option_run : Nat
  number_of_options_1 : List Bool
  number_of_options_2 : List Bool
  service_id : Nat
  instance_id : Nat
  major_version : Nat
  ttl : Nat
  minor_version : Nat
deriving DecidableEq, Repr

/-- ServiceEntry.__init__: validates each field in declaration order. -/
def ServiceEntry.init (type_field index_first_option_run
    index_second_option_run : Nat)
    (number_of_options_1 number_of_options_2 : List Bool)
    (service_id instance_id major_version ttl minor_version : Nat) :
    Except Err ServiceEntry := do
  _ ← validateBitInt "Entry Type" type_field 8
  _ ← validateBitInt "Index First Option Run" index_first_option_run 8
  _ ← validateBitInt "Index Second Option Run" index_second_option_run 8
  _ ← validateBitArr "number of Options 1" number_of_options_1 4
  _ ← validateBitArr "number of Options 2" number_of_options_2 4
  _ ← validateBitInt "Service ID" service_id 16
  _ ← validateBitInt "Instance ID" instance_id 16
  _ ← validateBitInt "Major Version" major_version 8
  _ ← validateBitInt "TTL" ttl 24
  _ ← validateBitInt "Minor Version" minor_version 32
  return ⟨type_field, index_first_option_run, index_second_option_run,
    number_of_options_1, number_of_options_2, service_id, instance_id,
    major_version, ttl, minor_version⟩

/-- ServiceEntry.encode: integer fields contribute their big-endian bytes, and
bitarray fields are appended when (and only when) their length matches the
declared width (the source's elif silently skips a mismatched bitarray). -/
def ServiceEntry.encode (e : ServiceEntry) : Except Err (List Nat) := do
  let b1 ← toBytesBits e.type_field (8 / 8)
  let b2 ← toBytesBits e.index_first_option_run (8 / 8)
  let b3 ← toBytesBits e.index_second_option_run (8 / 8)
  let b4 := if e.number_of_options_1.length = 4 then e.number_of_options_1
    else []
  let b5 := if e.number_of_options_2.length = 4 then e.number_of_options_2
    else []
  let b6 ← toBytesBits e.service_id (16 / 8)
  let b7 ← toBytesBits e.instance_id (16 / 8)
  let b8 ← toBytesBits e.major_version (8 / 8)
  let b9 ← toBytesBits e.ttl (24 / 8)
  let b10 ← toBytesBits e.minor_version (32 / 8)
  return bitsToBytes (b1 ++ b2 ++ b3 ++ b4 ++ b5 ++ b6 ++ b7 ++ b8 ++ b9 ++
    b10)

/-- ServiceEntry.decode: requires exactly 16 bytes, then slices every field at
its fixed offset and re-validates through the constructor. -/
def ServiceEntry.decode (series : List Nat) : Except Err ServiceEntry := do
  if series.length ≠ 16 then
    throw .invalidEntryLength
  let packet := bytesToBits series
  let type_field ← ba2int (pySlice packet 0 8)
  let index_first_option_run ← ba2int (pySlice packet 8 16)
  let index_second_option_run ← ba2int (pySlice packet 16 24)
  let number_of_options_1 := pySlice packet 24 28
  let number_of_options_2 := pySlice packet 28 32
  let service_id ← ba2int (pySlice packet 32 48)
  let instance_id ← ba2int (pySlice packet 48 64)
  let major_version ← ba2int (pySlice packet 64 72)
  let ttl ← ba2int (pySlice packet 72 96)
  let minor_version ← ba2int (pySlice packet 96 128)
  ServiceEntry.init type_field index_first_option_run index_second_option_run
    number_of_options_1 number_of_options_2 service_id instance_id
    major_version ttl minor_version

/-- Validity of a service entry: each field fits its declared width. -/
def ServiceEntry.Valid (e : ServiceEntry) : Prop :=
  e.type_field < 2 ^ 8 ∧ e.index_first_option_run < 2 ^ 8 ∧
    e.index_second_option_run < 2 ^ 8 ∧ e.number_of_options_1.length = 4 ∧
    e.number_of_options_2.length = 4 ∧ e.service_id < 2 ^ 16 ∧
    e.instance_id < 2 ^ 16 ∧ e.major_version < 2 ^ 8 ∧ e.ttl < 2 ^ 24 ∧
    e.minor_version < 2 ^ 32

instance (e : ServiceEntry) : Decidable e.Valid := by
  unfold ServiceEntry.Valid
  infer_instance

/-- The eventgroup entry of protocol/someipsd/entry/eventgroup_entry.py. -/
structure EventgroupEntry where
  type_field : Nat
  index_first_option_run : Nat
  index_second_option_run : Nat
  number_of_options_1 : List Bool
  number_of_options_2 : List Bool
  service_id : Nat
  instance_id : Nat
  major_version : Nat
  ttl : Nat
  reserved : List Bool
  counter : List Bool
  eventgroup_id : Nat
deriving DecidableEq, Repr

/-- EventgroupEntry.__init__: validates each field in declaration order. -/
def EventgroupEntry.init (type_field index_first_option_run
    index_second_option_run : Nat)
    (number_of_options_1 number_of_options_2 : List Bool)
    (service_id instance_id major_version ttl : Nat)
    (reserved counter : List Bool) (eventgroup_id : Nat) :
    Except Err EventgroupEntry := do
  _ ← validateBitInt "Entry Type" type_field 8
  _ ← validateBitInt "Index First Option Run" index_first_option_run 8
  _ ← validateBitInt "Index Second Option Run" index_second_option_run 8
  _ ← validateBitArr "number of Options 1" number_of_options_1 4
  _ ← validateBitArr "number of Options 2" number_of_options_2 4
  _ ← validateBitInt "Service ID" service_id 16
  _ ← validateBitInt "Instance ID" instance_id 16
  _ ← validateBitInt "Major Version" major_version 8
  _ ← validateBitInt "TTL" ttl 24
  _ ← validateBitArr "Reserved" reserved 12
  _ ← validateBitArr "Counter" counter 4
  _ ← validateBitInt "Eventgroup ID" eventgroup_id 16
  return ⟨type_field, index_first_option_run, index_second_option_run,
    number_of_options_1, number_of_options_2, service_id, instance_id,
    major_version, ttl, reserved, counter, eventgroup_id⟩

/-- EventgroupEntry.encode: same packing discipline as the service entry, with
the trailing reserved bits, counter nibble and eventgroup id. -/
def EventgroupEntry.encode (e : EventgroupEntry) : Except Err (List Nat) := do
  let b1 ← toBytesBits e.type_field (8 / 8)
  let b2 ← toBytesBits e.index_first_option_run (8 / 8)
  let b3 ← toBytesBits e.index_second_option_run (8 / 8)
  let b4 := if e.number_of_options_1.length = 4 then e.number_of_options_1
    else []
  let b5 := if e.number_of_options_2.length = 4 then e.number_of_options_2
    else []
  let b6 ← toBytesBits e.service_id (16 / 8)
  let b7 ← toBytesBits e.instance_id (16 / 8)
  let b8 ← toBytesBits e.major_version (8 / 8)
  let b9 ← toBytesBits e.ttl (24 / 8)
  let b10 := if e.reserved.length = 12 then e.reserved else []
  let b11 := if e.counter.length = 4 then e.counter else []
  let b12 ← toBytesBits e.eventgroup_id (16 / 8)
  return bitsToBytes (b1 ++ b2 ++ b3 ++ b4 ++ b5 ++ b6 ++ b7 ++ b8 ++ b9 ++
    b10 ++ b11 ++ b12)

/-- EventgroupEntry.decode: requires exactly 16 bytes, then consumes the bit
sequence front to back (the source repeatedly slices and drops). -/
def EventgroupEntry.decode (series : List Nat) : Except Err EventgroupEntry := do
  if series.length ≠ 16 then
    throw .invalidEntryLength
  let p0 := bytesToBits series
  let type_field ← intTo01 (p0.take 8)
  let p1 := p0.drop 8
  let index_first_option_run ← intTo01 (p1.take 8)
  let p2 := p1.drop 8
  let index_second_option_run ← intTo01 (p2.take 8)
  let p3 := p2.drop 8
  let number_of_options_1 := p3.take 4
  let p4 := p3.drop 4
  let number_of_options_2 := p4.take 4
  let p5 := p4.drop 4
  let service_id ← intTo01 (p5.take 16)
  let p6 := p5.drop 16
  let instance_id ← intTo01 (p6.take 16)
  let p7 := p6.drop 16
  let major_version ← intTo01 (p7.take 8)
  let p8 := p7.drop 8
  let ttl ← intTo01 (p8.take 24)
  let p9 := p8.drop 24
  let reserved := p9.take 12
  let p10 := p9.drop 12
  let counter := p10.take 4
  let p11 := p10.drop 4
  let eventgroup_id ← intTo01 (p11.take 16)
  EventgroupEntry.init type_field index_first_option_run
    index_second_option_run number_of_options_1 number_of_options_2
    service_id instance_id major_version ttl reserved counter eventgroup_id

/-- Validity of an eventgroup entry: each field fits its declared width. -/
def EventgroupEntry.Valid (e : EventgroupEntry) : Prop :=
  e.type_field < 2 ^ 8 ∧ e.index_first_option_run < 2 ^ 8 ∧
    e.index_second_option_run < 2 ^ 8 ∧ e.number_of_options_1.length = 4 ∧
    e.number_of_options_2.length = 4 ∧ e.service_id < 2 ^ 16 ∧
    e.instance_id < 2 ^ 16 ∧ e.major_version < 2 ^ 8 ∧ e.ttl < 2 ^ 24 ∧
    e.reserved.length = 12 ∧ e.counter.length = 4 ∧ e.eventgroup_id < 2 ^ 16

instance (e : EventgroupEntry) : Decidable e.Valid := by
  unfold EventgroupEntry.Valid
  infer_instance

/-- The IPv4 endpoint option of protocol/someipsd/option/ipv4_option.py.  The
Python class stores the address as a dotted string (or an IPv4Address object
after a decode); on the wire only its four packed bytes appear, so the address
is modelled here by those packed bytes. -/
structure IPv4Option where
  type : Nat
  discardable_flag : List Bool
  ipv4_address : List Nat
  transport_protocol : Nat
  transport_protocol_port_number : Nat
deriving DecidableEq, Repr

/-- The __validate_ipv4_address check: the stored address must denote an IPv4
address, i.e. its packed form must be exactly four bytes. -/
def validateIPv4Address (address : List Nat) : Except Err Unit :=
  if address.length = 4 ∧ address.all (· < 256) then .ok ()
  else .error .invalidAddress

/-- IPv4Option.__init__: validates widths and the address family. -/
def IPv4Option.init (type : Nat) (discardable_flag : List Bool)
    (ipv4_address : List Nat) (transport_protocol
    transport_protocol_port_number : Nat) : Except Err IPv4Option := do
  _ ← validateBitInt "Type" type 8
  _ ← validateBitArr "Discardable Flag" discardable_flag 1
  _ ← validateBitInt "Transport Protocol" transport_protocol 8
  _ ← validateBitInt "Transport Protocol Port Number"
    transport_protocol_port_number 16
  _ ← validateIPv4Address ipv4_address
  return ⟨type, discardable_flag, ipv4_address, transport_protocol,
    transport_protocol_port_number⟩

/-- The fixed length constant 0x0009 of the IPv4 option. -/
def IPv4Option.length (_o : IPv4Option) : Nat := 0x0009

/-- IPv4Option.encode: fixed length constant, type, flag bit, 7 reserved bits,
the packed address, a reserved byte, transport protocol and port. -/
def IPv4Option.encode (o : IPv4Option) : Except Err (List Nat) := do
  let b1 ← toBytesBits o.length (16 / 8)
  let b2 ← toBytesBits o.type (8 / 8)
  let b3 := o.discardable_flag
  let b4 := List.replicate 7 false
  let b5 := bytesToBits o.ipv4_address
  let b6 := List.replicate 8 false
  let b7 ← toBytesBits o.transport_protocol (8 / 8)
  let b8 ← toBytesBits o.transport_protocol_port_number (16 / 8)
  return bitsToBytes (b1 ++ b2 ++ b3 ++ b4 ++ b5 ++ b6 ++ b7 ++ b8)

/-- IPv4Option.decode: requires exactly 12 bytes, slices the fields (ignoring
the length field and the reserved bits) and re-validates via the constructor. -/
def IPv4Option.decode (series : List Nat) : Except Err IPv4Option := do
  if series.length ≠ 12 then
    throw .invalidIPv4OptionLength
  let packet := bytesToBits series
  let type ← ba2int (pySlice packet 16 24)
  let discardable_flag := pySlice packet 24 25
  let ipv4_address := bitsToBytes (pySlice packet 32 64)
  let transport_protocol ← ba2int (pySlice packet 72 80)
  let transport_protocol_port_number ← ba2int (pySlice packet 80 96)
  IPv4Option.init type discardable_flag ipv4_address transport_protocol
    transport_protocol_port_number

/-- Validity of an IPv4 option value: widths fit and the address is a packed
four-byte sequence. -/
def IPv4Option.Valid (o : IPv4Option) : Prop :=
  o.type < 2 ^ 8 ∧ o.discardable_flag.length = 1 ∧
    o.ipv4_address.length = 4 ∧ (∀ b ∈ o.ipv4_address, b < 256) ∧
    o.transport_protocol < 2 ^ 8 ∧
    o.transport_protocol_port_number < 2 ^ 16

instance (o : IPv4Option) : Decidable o.Valid := by
  unfold IPv4Option.Valid
  infer_instance

/-- The IPv6 endpoint option of protocol/someipsd/option/ipv6_option.py, with
the address modelled by its sixteen packed bytes. -/
structure IPv6Option where
  type : Nat
  discardable_flag : List Bool
  ipv6_address : List Nat
  transport_protocol : Nat
  transport_protocol_port_number : Nat
deriving DecidableEq, Repr

/-- The __validate_ipv6_address check: the packed form must be 16 bytes. -/
def validateIPv6Address (address : List Nat) : Except Err Unit :=
  if address.length = 16 ∧ address.all (· < 256) then .ok ()
  else .error .invalidAddress

/-- IPv6Option.__init__: validates widths and the address family. -/
def IPv6Option.init (type : Nat) (discardable_flag : List Bool)
    (ipv6_address : List Nat) (transport_protocol
    transport_protocol_port_number : Nat) : Except Err IPv6Option := do
  _ ← validateBitInt "Type" type 8
  _ ← validateBitArr "Discardable Flag" discardable_flag 1
  _ ← validateBitInt "Transport Protocol" transport_protocol 8
  _ ← validateBitInt "Transport Protocol Port Number"
    transport_protocol_port_number 16
  _ ← validateIPv6Address ipv6_address
  return ⟨type, discardable_flag, ipv6_address, transport_protocol,
    transport_protocol_port_number⟩

/-- The fixed length constant 0x0015 of the IPv6 option. -/
def IPv6Option.length (_o : IPv6Option) : Nat := 0x0015

/-- IPv6Option.encode: same layout as IPv4 with a 16-byte address. -/
def IPv6Option.encode (o : IPv6Option) : Except Err (List Nat) := do
  let b1 ← toBytesBits o.length (16 / 8)
  let b2 ← toBytesBits o.type (8 / 8)
  let b3 := o.discardable_flag
  let b4 := List.replicate 7 false
  let b5 := bytesToBits o.ipv6_address
  let b6 := List.replicate 8 false
  let b7 ← toBytesBits o.transport_protocol (8 / 8)
  let b8 ← toBytesBits o.transport_protocol_port_number (16 / 8)
  return bitsToBytes (b1 ++ b2 ++ b3 ++ b4 ++ b5 ++ b6 ++ b7 ++ b8)

/-- IPv6Option.decode: requires exactly 24 bytes, then slices the fields. -/
def IPv6Option.decode (series : List Nat) : Except Err IPv6Option := do
  if series.length ≠ 24 then
    throw .invalidIPv6OptionLength
  let packet := bytesToBits series
  let type ← ba2int (pySlice packet 16 24)
  let discardable_flag := pySlice packet 24 25
  let ipv6_address := bitsToBytes (pySlice packet 32 160)
  let transport_protocol ← ba2int (pySlice packet 168 176)
  let transport_protocol_port_number ← ba2int (pySlice packet 176 192)
  IPv6Option.init type discardable_flag ipv6_address transport_protocol
    transport_protocol_port_number

/-- Validity of an IPv6 option value. -/
def IPv6Option.Valid (o : IPv6Option) : Prop :=
  o.type < 2 ^ 8 ∧ o.discardable_flag.length = 1 ∧
    o.ipv6_address.length = 16 ∧ (∀ b ∈ o.ipv6_address, b < 256) ∧
    o.transport_protocol < 2 ^ 8 ∧
    o.transport_protocol_port_number < 2 ^ 16

instance (o : IPv6Option) : Decidable o.Valid := by
  unfold IPv6Option.Valid
  infer_instance

namespace Core

/-- Transport endpoints are (IP string, port) pairs. -/
def Addr : Type := String × Nat

instance : DecidableEq Addr := by
  unfold Addr
  infer_instance

/-- Lookup in an association list modelling a Python dict (keys unique). -/
def alookup {α β : Type} [DecidableEq α] (m : List (α × β)) (k : α) :
    Option β :=
  match m with
  | [] => none
  | (a, b) :: rest => if a = k then some b else alookup rest k

/-- Python dict assignment d[k] = v: replaces in place, or appends a new
binding at the end (insertion order). -/
def aset {α β : Type} [DecidableEq α] (m : List (α × β)) (k : α) (v : β) :
    List (α × β) :=
  match m with
  | [] => [(k, v)]
  | (a, b) :: rest => if a = k then (k, v) :: rest else (a, b) :: aset rest k v

/-- Python dict removal d.pop(k): removes the binding of k when present. -/
def aerase {α β : Type} [DecidableEq α] (m : List (α × β)) (k : α) :
    List (α × β) :=
  match m with
  | [] => []
  | (a, b) :: rest => if a = k then rest else (a, b) :: aerase rest k

/-- One next() call on an itertools.count whose pending value is c: it yields
c and the pending value becomes c + 1. -/
def countNext (c : Nat) : Nat × Nat := (c, c + 1)

/-- State of core/allocator.py Allocator.  The client pool (a Python set of
small contiguous integers) is modelled as a list, with set.pop taking the
head — set.pop returns an unspecified element, and no claim depends on which
one.  Each itertools.count in client_session_map is represented by its pending
value. -/
structure Allocator where
  client_pool : List Nat
  address_client_map : List (Addr × Nat)
  client_session_map : List (Nat × Nat)

/-- Allocator.__init__: the pool holds set(range(1, 0xFFFF)) = 1..0xFFFE and
both maps start empty. -/
def Allocator.mkInit : Allocator :=
  ⟨List.range' 1 0xFFFE, [], []⟩

/-- Allocator.get_client_id: idempotent per address; a new address takes an id
from the pool (set.pop raises KeyError when the pool is empty). -/
def Allocator.get_client_id (s : Allocator) (addr : Addr) :
    Except Err (Nat × Allocator) :=
  match alookup s.address_client_map addr with
  | some cid => .ok (cid, s)
  | none =>
    match s.client_pool with
    | [] => .error .keyError
    | c :: rest =>
      .ok (c, { s with
        client_pool := rest,
        address_client_map := aset s.address_client_map addr c })

/-- Allocator.get_session_id, exactly as written: next() is called on the
client's counter (a fresh counter materialises through the defaultdict when
the client is unknown); when that first drawn value reaches 0xFFFF the counter
is replaced by a fresh one; the returned value is a second next() call. -/
def Allocator.get_session_id (s : Allocator) (client_id : Nat) :
    Nat × Allocator :=
  let cnt := (alookup s.client_session_map client_id).getD 0
  let (session_id, c1) := countNext cnt
  if session_id ≥ 0xFFFF then
    let (ret, c2) := countNext 0
    (ret, { s with client_session_map := aset s.client_session_map client_id c2 })
  else
    let (ret, c2) := countNext c1
    (ret, { s with client_session_map := aset s.client_session_map client_id c2 })

/-- Allocator.release_client_id: removes the address binding, discards the
session counter of the released id and returns the id to the pool. -/
def Allocator.release_client_id (s : Allocator) (addr : Addr) : Allocator :=
  match alookup s.address_client_map addr with
  | none => s
  | some client_id =>
    { client_pool := s.client_pool ++ [client_id],
      address_client_map := aerase s.address_client_map addr,
      client_session_map := aerase s.client_session_map client_id }

/-- Allocator.release: clears both maps and restores the full pool. -/
def Allocator.release (_s : Allocator) : Allocator :=
  ⟨List.range' 1 0xFFFE, [], []⟩

/-- The public allocator operations, for quantifying over call sequences. -/
inductive AllocOp where
  | getClientId (addr : Addr)
  | getSessionId (client_id : Nat)
  | releaseClientId (addr : Addr)
  | release

/-- State transition of one allocator operation; an operation that raises
(pool exhaustion) leaves the state unchanged. -/
def Allocator.step (s : Allocator) : AllocOp → Allocator
  | .getClientId addr =>
    match s.get_client_id addr with
    | .ok (_, s2) => s2
    | .error _ => s
  | .getSessionId c => (s.get_session_id c).2
  | .releaseClientId addr => s.release_client_id addr
  | .release => s.release

/-- The allocator state after an operation sequence from the initial state. -/
def Allocator.runOps (ops : List AllocOp) : Allocator :=
  ops.foldl Allocator.step Allocator.mkInit

/-- The inductive invariant of the allocator: assigned ids and pooled ids are
jointly duplicate-free, all lie in the range 1..0xFFFE, and registered
addresses are unique. -/
def Allocator.Inv (s : Allocator) : Prop :=
  (s.address_client_map.map Prod.snd ++ s.client_pool).Nodup ∧
    (∀ c ∈ s.address_client_map.map Prod.snd ++ s.client_pool,
      1 ≤ c ∧ c ≤ 0xFFFE) ∧
    (s.address_client_map.map Prod.fst).Nodup

end Core

theorem bitsToNat_append_bit (xs : List Bool) (b : Bool) :
    bitsToNat (xs ++ [b]) = 2 * bitsToNat xs + b.toNat := by
  simp [bitsToNat, List.foldl_append]

theorem natToBitsBE_length (w v : Nat) : (natToBitsBE w v).length = w := by
  induction w generalizing v with
  | zero => rfl
  | succ k ih => simp [natToBitsBE, ih]

theorem bitsToNat_natToBitsBE (w v : Nat) (h : v < 2 ^ w) :
    bitsToNat (natToBitsBE w v) = v := by
  induction w generalizing v with
  | zero =>
    simp only [natToBitsBE, bitsToNat, List.foldl_nil]
    simp at h
    omega
  | succ k ih =>
    simp only [natToBitsBE, bitsToNat_append_bit]
    rw [ih (v / 2) (by rw [pow_succ] at h; omega)]
    have h2 := Nat.div_add_mod v 2
    rcases Nat.mod_two_eq_zero_or_one v with h3 | h3 <;> simp [h3] <;> omega

theorem bitsToNat_lt (bs : List Bool) : bitsToNat bs < 2 ^ bs.length := by
  induction bs using List.reverseRecOn with
  | nil => simp [bitsToNat]
  | append_singleton xs b ih =>
    rw [bitsToNat_append_bit]
    simp only [List.length_append, List.length_cons, List.length_nil]
    have hb : b.toNat ≤ 1 := Bool.toNat_le b
    rw [pow_succ]
    omega

theorem natToBitsBE_bitsToNat (bs : List Bool) :
    natToBitsBE bs.length (bitsToNat bs) = bs := by
  induction bs using List.reverseRecOn with
  | nil => rfl
  | append_singleton xs b ih =>
    simp only [List.length_append, List.length_cons, List.length_nil,
      bitsToNat_append_bit, natToBitsBE]
    have hb : b.toNat ≤ 1 := Bool.toNat_le b
    have hdiv : (2 * bitsToNat xs + b.toNat) / 2 = bitsToNat xs := by omega
    have hmod : (2 * bitsToNat xs + b.toNat) % 2 = b.toNat := by omega
    rw [hdiv, hmod, ih]
    congr 1
    cases b <;> rfl

theorem bytesToBits_cons (b : Nat) (t : List Nat) :
    bytesToBits (b :: t) = byteToBits b ++ bytesToBits t := by
  simp [bytesToBits]

theorem bytesToBits_append (s t : List Nat) :
    bytesToBits (s ++ t) = bytesToBits s ++ bytesToBits t := by
  simp [bytesToBits]

theorem byteToBits_length (b : Nat) : (byteToBits b).length = 8 :=
  natToBitsBE_length 8 _

theorem bytesToBits_length (s : List Nat) :
    (bytesToBits s).length = 8 * s.length := by
  induction s with
  | nil => rfl
  | cons b t ih =>
    simp only [bytesToBits_cons, List.length_append, byteToBits_length, ih,
      List.length_cons]
    ring

theorem bitsToBytes_cons8 (c rest : List Bool) (h : c.length = 8) :
    bitsToBytes (c ++ rest) = bitsToNat c :: bitsToBytes rest := by
  obtain ⟨b1, c, rfl⟩ := List.exists_of_length_succ c (show c.length = 7 + 1 by omega)
  simp only [List.length_cons] at h
  obtain ⟨b2, c, rfl⟩ := List.exists_of_length_succ c (show c.length = 6 + 1 by omega)
  simp only [List.length_cons] at h
  obtain ⟨b3, c, rfl⟩ := List.exists_of_length_succ c (show c.length = 5 + 1 by omega)
  simp only [List.length_cons] at h
  obtain ⟨b4, c, rfl⟩ := List.exists_of_length_succ c (show c.length = 4 + 1 by omega)
  simp only [List.length_cons] at h
  obtain ⟨b5, c, rfl⟩ := List.exists_of_length_succ c (show c.length = 3 + 1 by omega)
  simp only [List.length_cons] at h
  obtain ⟨b6, c, rfl⟩ := List.exists_of_length_succ c (show c.length = 2 + 1 by omega)
  simp only [List.length_cons] at h
  obtain ⟨b7, c, rfl⟩ := List.exists_of_length_succ c (show c.length = 1 + 1 by omega)
  simp only [List.length_cons] at h
  obtain ⟨b8, c, rfl⟩ := List.exists_of_length_succ c (show c.length = 0 + 1 by omega)
  simp only [List.length_cons] at h
  have : c = [] := List.length_eq_zero.mp (by omega)
  subst this
  rfl

theorem bytesToBits_bitsToBytes (bs : List Bool) (h : 8 ∣ bs.length) :
    bytesToBits (bitsToBytes bs) = bs := by
  obtain ⟨k, hk⟩ := h
  induction k generalizing bs with
  | zero =>
    have : bs = [] := List.length_eq_zero.mp (by omega)
    subst this
    rfl
  | succ m ih =>
    have htake : (bs.take 8).length = 8 := by
      simp [List.length_take]
      omega
    have hsplit : bs = bs.take 8 ++ bs.drop 8 := (List.take_append_drop 8 bs).symm
    rw [hsplit, bitsToBytes_cons8 _ _ htake, bytesToBits_cons]
    have hmod : bitsToNat (bs.take 8) % 256 = bitsToNat (bs.take 8) := by
      have := bitsToNat_lt (bs.take 8)
      rw [htake] at this
      omega
    have hb : byteToBits (bitsToNat (bs.take 8)) = bs.take 8 := by
      rw [byteToBits, hmod]
      have h9 := natToBitsBE_bitsToNat (bs.take 8)
      rw [htake] at h9
      exact h9
    rw [hb, ih (bs.drop 8) (by simp [List.length_drop]; omega)]

theorem bitsToBytes_bytesToBits (s : List Nat) :
    bitsToBytes (bytesToBits s) = s.map (· % 256) := by
  induction s with
  | nil => rfl
  | cons b t ih =>
    rw [bytesToBits_cons, bitsToBytes_cons8 _ _ (byteToBits_length b), ih]
    have : bitsToNat (byteToBits b) = b % 256 := by
      rw [byteToBits, bitsToNat_natToBitsBE 8 (b % 256) (by omega)]
    simp [this]

theorem pySlice_first (w : Nat) (f rest : List α) (h : f.length = w) :
    pySlice (f ++ rest) 0 w = f := by
  simp only [pySlice, List.drop_zero, Nat.sub_zero]
  rw [← h]
  exact List.take_left f rest

theorem pySlice_peel (w : Nat) (f rest : List α) (h : f.length = w)
    (a b : Nat) (ha : w ≤ a) :
    pySlice (f ++ rest) a b = pySlice rest (a - w) (b - w) := by
  subst h
  unfold pySlice
  have h1 : List.drop a (f ++ rest) = List.drop (a - f.length) rest := by
    have h2 : a = f.length + (a - f.length) := by omega
    conv_lhs => rw [h2]
    rw [← List.drop_drop, List.drop_left]
  rw [h1, show b - a = b - f.length - (a - f.length) by omega]

theorem pySlice_suffix (xs : List α) (a : Nat) :
    pySlice xs a xs.length = xs.drop a := by
  unfold pySlice
  apply List.take_of_length_le
  simp [List.length_drop]

theorem read_ok (bits : List Bool) (i n : Nat) (h : i + n ≤ bits.length) :
    Utils.BitReader.read ⟨bits, i⟩ n =
      .ok (pySlice bits i (i + n), ⟨bits, i + n⟩) := by
  unfold Utils.BitReader.read Utils.BitReader.setIndex
  simp only
  rw [if_neg (by simp; omega)]
  rfl

theorem read_err (bits : List Bool) (i n : Nat) (h : bits.length < i + n) :
    Utils.BitReader.read ⟨bits, i⟩ n = .error .indexOutOfRange := by
  unfold Utils.BitReader.read Utils.BitReader.setIndex
  simp only
  rw [if_pos (by simp; omega)]
  rfl

theorem except_bind_ok {e a b : Type} (x : a) (f : a → Except e b) :
    (Except.ok x : Except e a) >>= f = f x := rfl

theorem except_pure_eq {e a : Type} (x : a) :
    (pure x : Except e a) = Except.ok x := rfl

theorem except_bind_ok2 {e a b : Type} (x : a) (f : a → Except e b) :
    (Except.ok x : Except e a).bind f = f x := rfl

theorem toBytesBits_ok (v n : Nat) (h : v < 256 ^ n) :
    toBytesBits v n = .ok (natToBitsBE (8 * n) v) := by
  unfold toBytesBits
  rw [if_pos h]

example (e : ServiceEntry) (h : e.Valid) : True := by
  obtain ⟨h1, h2, h3, h4, h5, h6, h7, h8, h9, h10⟩ := h
  have henc : ServiceEntry.encode e = .ok (bitsToBytes
      (natToBitsBE 8 e.type_field ++ natToBitsBE 8 e.index_first_option_run ++
       natToBitsBE 8 e.index_second_option_run ++ e.number_of_options_1 ++
       e.number_of_options_2 ++ natToBitsBE 16 e.service_id ++
       natToBitsBE 16 e.instance_id ++ natToBitsBE 8 e.major_version ++
       natToBitsBE 24 e.ttl ++ natToBitsBE 32 e.minor_version)) := by
    unfold ServiceEntry.encode
    rw [toBytesBits_ok _ _ (show e.type_field < 256 ^ (8 / 8) by norm_num; omega)]
    rw [toBytesBits_ok _ _ (show e.index_first_option_run < 256 ^ (8 / 8) by norm_num; omega)]
    rw [toBytesBits_ok _ _ (show e.index_second_option_run < 256 ^ (8 / 8) by norm_num; omega)]
    rw [toBytesBits_ok _ _ (show e.service_id < 256 ^ (16 / 8) by norm_num; omega)]
    rw [toBytesBits_ok _ _ (show e.instance_id < 256 ^ (16 / 8) by norm_num; omega)]
    rw [toBytesBits_ok _ _ (show e.major_version < 256 ^ (8 / 8) by norm_num; omega)]
    rw [toBytesBits_ok _ _ (show e.ttl < 256 ^ (24 / 8) by norm_num; omega)]
    rw [toBytesBits_ok _ _ (show e.minor_version < 256 ^ (32 / 8) by norm_num; omega)]
    simp only [except_bind_ok, except_pure_eq, if_pos h4, if_pos h5]
  trivial

theorem ba2int_bits (w v : Nat) (hw : w ≠ 0) (h : v < 2 ^ w) :
    ba2int (natToBitsBE w v) = .ok v := by
  unfold ba2int
  rw [if_neg (by simp [List.isEmpty_iff, ← List.length_eq_zero, natToBitsBE_length]; omega),
    bitsToNat_natToBitsBE w v h]

theorem ba2int_arr (bs : List Bool) (h : bs ≠ []) :
    ba2int bs = .ok (bitsToNat bs) := by
  unfold ba2int
  rw [if_neg (by simpa [List.isEmpty_iff] using h)]

theorem validateBitInt_ok (name : String) (v bits : Nat) (h : v < 2 ^ bits) :
    validateBitInt name v bits = .ok () := by
  unfold validateBitInt
  rw [if_pos (by omega)]

theorem validateBitArr_ok (name : String) (v : List Bool) (bits : Nat)
    (h : v.length = bits) : validateBitArr name v bits = .ok () := by
  unfold validateBitArr
  rw [if_pos h]

theorem pySlice_full (xs : List α) : pySlice xs 0 xs.length = xs := by
  simp [pySlice]

theorem serviceEntry_roundtrip (e : ServiceEntry) (h : e.Valid) :
    (ServiceEntry.encode e).bind ServiceEntry.decode = .ok e := by
  obtain ⟨tf, i1, i2, n1, n2, sid, iid, mj, ttl, mn⟩ := e
  obtain ⟨h1, h2, h3, h4, h5, h6, h7, h8, h9, h10⟩ := h
  simp only at h1 h2 h3 h4 h5 h6 h7 h8 h9 h10
  have w1 : (natToBitsBE 8 tf).length = 8 := natToBitsBE_length 8 tf
  have w2 : (natToBitsBE 8 i1).length = 8 := natToBitsBE_length 8 i1
  have w3 : (natToBitsBE 8 i2).length = 8 := natToBitsBE_length 8 i2
  have w6 : (natToBitsBE 16 sid).length = 16 := natToBitsBE_length 16 sid
  have w7 : (natToBitsBE 16 iid).length = 16 := natToBitsBE_length 16 iid
  have w8 : (natToBitsBE 8 mj).length = 8 := natToBitsBE_length 8 mj
  have w9 : (natToBitsBE 24 ttl).length = 24 := natToBitsBE_length 24 ttl
  have w10 : (natToBitsBE 32 mn).length = 32 := natToBitsBE_length 32 mn
  have henc : ServiceEntry.encode ⟨tf, i1, i2, n1, n2, sid, iid, mj, ttl, mn⟩ =
      .ok (bitsToBytes (natToBitsBE 8 tf ++ (natToBitsBE 8 i1 ++
        (natToBitsBE 8 i2 ++ (n1 ++ (n2 ++ (natToBitsBE 16 sid ++
        (natToBitsBE 16 iid ++ (natToBitsBE 8 mj ++ (natToBitsBE 24 ttl ++
        natToBitsBE 32 mn)))))))))) := by
    unfold ServiceEntry.encode
    rw [toBytesBits_ok _ _ (show tf < 256 ^ (8 / 8) by norm_num; omega)]
    rw [toBytesBits_ok _ _ (show i1 < 256 ^ (8 / 8) by norm_num; omega)]
    rw [toBytesBits_ok _ _ (show i2 < 256 ^ (8 / 8) by norm_num; omega)]
    rw [toBytesBits_ok _ _ (show sid < 256 ^ (16 / 8) by norm_num; omega)]
    rw [toBytesBits_ok _ _ (show iid < 256 ^ (16 / 8) by norm_num; omega)]
    rw [toBytesBits_ok _ _ (show mj < 256 ^ (8 / 8) by norm_num; omega)]
    rw [toBytesBits_ok _ _ (show ttl < 256 ^ (24 / 8) by norm_num; omega)]
    rw [toBytesBits_ok _ _ (show mn < 256 ^ (32 / 8) by norm_num; omega)]
    simp only [except_bind_ok, except_pure_eq, if_pos h4, if_pos h5]
    simp [List.append_assoc]
  rw [henc, except_bind_ok2]
  have hlenE : (natToBitsBE 8 tf ++ (natToBitsBE 8 i1 ++
      (natToBitsBE 8 i2 ++ (n1 ++ (n2 ++ (natToBitsBE 16 sid ++
      (natToBitsBE 16 iid ++ (natToBitsBE 8 mj ++ (natToBitsBE 24 ttl ++
      natToBitsBE 32 mn))))))))).length = 128 := by
    simp [natToBitsBE_length, h4, h5]
  have hbits := bytesToBits_bitsToBytes _ (hlenE ▸ (⟨16, rfl⟩ : (8:Nat) ∣ 128))
  have hserlen : (bitsToBytes (natToBitsBE 8 tf ++ (natToBitsBE 8 i1 ++
      (natToBitsBE 8 i2 ++ (n1 ++ (n2 ++ (natToBitsBE 16 sid ++
      (natToBitsBE 16 iid ++ (natToBitsBE 8 mj ++ (natToBitsBE 24 ttl ++
      natToBitsBE 32 mn)))))))))).length = 16 := by
    have hx := bytesToBits_length (bitsToBytes (natToBitsBE 8 tf ++
      (natToBitsBE 8 i1 ++ (natToBitsBE 8 i2 ++ (n1 ++ (n2 ++
      (natToBitsBE 16 sid ++ (natToBitsBE 16 iid ++ (natToBitsBE 8 mj ++
      (natToBitsBE 24 ttl ++ natToBitsBE 32 mn))))))))))
    rw [hbits, hlenE] at hx
    omega
  unfold ServiceEntry.decode
  rw [hserlen]
  simp only [ne_eq, not_true_eq_false, if_false, reduceIte, hbits]
  have s1 : pySlice (natToBitsBE 8 tf ++ (natToBitsBE 8 i1 ++ (natToBitsBE 8 i2 ++ (n1 ++ (n2 ++ (natToBitsBE 16 sid ++ (natToBitsBE 16 iid ++ (natToBitsBE 8 mj ++ (natToBitsBE 24 ttl ++ natToBitsBE 32 mn))))))))) 0 8 = natToBitsBE 8 tf := pySlice_first 8 _ _ w1
  have q1 : ∀ a b : Nat, 8 ≤ a → pySlice (natToBitsBE 8 tf ++ (natToBitsBE 8 i1 ++ (natToBitsBE 8 i2 ++ (n1 ++ (n2 ++ (natToBitsBE 16 sid ++ (natToBitsBE 16 iid ++ (natToBitsBE 8 mj ++ (natToBitsBE 24 ttl ++ natToBitsBE 32 mn))))))))) a b = pySlice (natToBitsBE 8 i1 ++ (natToBitsBE 8 i2 ++ (n1 ++ (n2 ++ (natToBitsBE 16 sid ++ (natToBitsBE 16 iid ++ (natToBitsBE 8 mj ++ (natToBitsBE 24 ttl ++ natToBitsBE 32 mn)))))))) (a - 8) (b - 8) := fun a b ha => pySlice_peel 8 _ _ w1 a b ha
  have s2 : pySlice (natToBitsBE 8 tf ++ (natToBitsBE 8 i1 ++ (natToBitsBE 8 i2 ++ (n1 ++ (n2 ++ (natToBitsBE 16 sid ++ (natToBitsBE 16 iid ++ (natToBitsBE 8 mj ++ (natToBitsBE 24 ttl ++ natToBitsBE 32 mn))))))))) 8 16 = natToBitsBE 8 i1 := by
    rw [q1 8 16 (by norm_num)]
    norm_num
    exact pySlice_first 8 _ _ w2
  have q2 : ∀ a b : Nat, 16 ≤ a → pySlice (natToBitsBE 8 tf ++ (natToBitsBE 8 i1 ++ (natToBitsBE 8 i2 ++ (n1 ++ (n2 ++ (natToBitsBE 16 sid ++ (natToBitsBE 16 iid ++ (natToBitsBE 8 mj ++ (natToBitsBE 24 ttl ++ natToBitsBE 32 mn))))))))) a b = pySlice (natToBitsBE 8 i2 ++ (n1 ++ (n2 ++ (natToBitsBE 16 sid ++ (natToBitsBE 16 iid ++ (natToBitsBE 8 mj ++ (natToBitsBE 24 ttl ++ natToBitsBE 32 mn))))))) (a - 16) (b - 16) := by
    intro a b ha
    rw [q1 a b (by omega), pySlice_peel 8 _ _ w2 (a - 8) (b - 8) (by omega)]
    congr 1
  have s3 : pySlice (natToBitsBE 8 tf ++ (natToBitsBE 8 i1 ++ (natToBitsBE 8 i2 ++ (n1 ++ (n2 ++ (natToBitsBE 16 sid ++ (natToBitsBE 16 iid ++ (natToBitsBE 8 mj ++ (natToBitsBE 24 ttl ++ natToBitsBE 32 mn))))))))) 16 24 = natToBitsBE 8 i2 := by
    rw [q2 16 24 (by norm_num)]
    norm_num
    exact pySlice_first 8 _ _ w3
  have q3 : ∀ a b : Nat, 24 ≤ a → pySlice (natToBitsBE 8 tf ++ (natToBitsBE 8 i1 ++ (natToBitsBE 8 i2 ++ (n1 ++ (n2 ++ (natToBitsBE 16 sid ++ (natToBitsBE 16 iid ++ (natToBitsBE 8 mj ++ (natToBitsBE 24 ttl ++ natToBitsBE 32 mn))))))))) a b = pySlice (n1 ++ (n2 ++ (natToBitsBE 16 sid ++ (natToBitsBE 16 iid ++ (natToBitsBE 8 mj ++ (natToBitsBE 24 ttl ++ natToBitsBE 32 mn)))))) (a - 24) (b - 24) := by
    intro a b ha
    rw [q2 a b (by omega), pySlice_peel 8 _ _ w3 (a - 16) (b - 16) (by omega)]
    congr 1
  have s4 : pySlice (natToBitsBE 8 tf ++ (natToBitsBE 8 i1 ++ (natToBitsBE 8 i2 ++ (n1 ++ (n2 ++ (natToBitsBE 16 sid ++ (natToBitsBE 16 iid ++ (natToBitsBE 8 mj ++ (natToBitsBE 24 ttl ++ natToBitsBE 32 mn))))))))) 24 28 = n1 := by
    rw [q3 24 28 (by norm_num)]
    norm_num
    exact pySlice_first 4 _ _ h4
  have q4 : ∀ a b : Nat, 28 ≤ a → pySlice (natToBitsBE 8 tf ++ (natToBitsBE 8 i1 ++ (natToBitsBE 8 i2 ++ (n1 ++ (n2 ++ (natToBitsBE 16 sid ++ (natToBitsBE 16 iid ++ (natToBitsBE 8 mj ++ (natToBitsBE 24 ttl ++ natToBitsBE 32 mn))))))))) a b = pySlice (n2 ++ (natToBitsBE 16 sid ++ (natToBitsBE 16 iid ++ (natToBitsBE 8 mj ++ (natToBitsBE 24 ttl ++ natToBitsBE 32 mn))))) (a - 28) (b - 28) := by
    intro a b ha
    rw [q3 a b (by omega), pySlice_peel 4 _ _ h4 (a - 24) (b - 24) (by omega)]
    congr 1
  have s5 : pySlice (natToBitsBE 8 tf ++ (natToBitsBE 8 i1 ++ (natToBitsBE 8 i2 ++ (n1 ++ (n2 ++ (natToBitsBE 16 sid ++ (natToBitsBE 16 iid ++ (natToBitsBE 8 mj ++ (natToBitsBE 24 ttl ++ natToBitsBE 32 mn))))))))) 28 32 = n2 := by
    rw [q4 28 32 (by norm_num)]
    norm_num
    exact pySlice_first 4 _ _ h5
  have q5 : ∀ a b : Nat, 32 ≤ a → pySlice (natToBitsBE 8 tf ++ (natToBitsBE 8 i1 ++ (natToBitsBE 8 i2 ++ (n1 ++ (n2 ++ (natToBitsBE 16 sid ++ (natToBitsBE 16 iid ++ (natToBitsBE 8 mj ++ (natToBitsBE 24 ttl ++ natToBitsBE 32 mn))))))))) a b = pySlice (natToBitsBE 16 sid ++ (natToBitsBE 16 iid ++ (natToBitsBE 8 mj ++ (natToBitsBE 24 ttl ++ natToBitsBE 32 mn)))) (a - 32) (b - 32) := by
    intro a b ha
    rw [q4 a b (by omega), pySlice_peel 4 _ _ h5 (a - 28) (b - 28) (by omega)]
    congr 1
  have s6 : pySlice (natToBitsBE 8 tf ++ (natToBitsBE 8 i1 ++ (natToBitsBE 8 i2 ++ (n1 ++ (n2 ++ (natToBitsBE 16 sid ++ (natToBitsBE 16 iid ++ (natToBitsBE 8 mj ++ (natToBitsBE 24 ttl ++ natToBitsBE 32 mn))))))))) 32 48 = natToBitsBE 16 sid := by
    rw [q5 32 48 (by norm_num)]
    norm_num
    exact pySlice_first 16 _ _ w6
  have q6 : ∀ a b : Nat, 48 ≤ a → pySlice (natToBitsBE 8 tf ++ (natToBitsBE 8 i1 ++ (natToBitsBE 8 i2 ++ (n1 ++ (n2 ++ (natToBitsBE 16 sid ++ (natToBitsBE 16 iid ++ (natToBitsBE 8 mj ++ (natToBitsBE 24 ttl ++ natToBitsBE 32 mn))))))))) a b = pySlice (natToBitsBE 16 iid ++ (natToBitsBE 8 mj ++ (natToBitsBE 24 ttl ++ natToBitsBE 32 mn))) (a - 48) (b - 48) := by
    intro a b ha
    rw [q5 a b (by omega), pySlice_peel 16 _ _ w6 (a - 32) (b - 32) (by omega)]
    congr 1
  have s7 : pySlice (natToBitsBE 8 tf ++ (natToBitsBE 8 i1 ++ (natToBitsBE 8 i2 ++ (n1 ++ (n2 ++ (natToBitsBE 16 sid ++ (natToBitsBE 16 iid ++ (natToBitsBE 8 mj ++ (natToBitsBE 24 ttl ++ natToBitsBE 32 mn))))))))) 48 64 = natToBitsBE 16 iid := by
    rw [q6 48 64 (by norm_num)]
    norm_num
    exact pySlice_first 16 _ _ w7
  have q7 : ∀ a b : Nat, 64 ≤ a → pySlice (natToBitsBE 8 tf ++ (natToBitsBE 8 i1 ++ (natToBitsBE 8 i2 ++ (n1 ++ (n2 ++ (natToBitsBE 16 sid ++ (natToBitsBE 16 iid ++ (natToBitsBE 8 mj ++ (natToBitsBE 24 ttl ++ natToBitsBE 32 mn))))))))) a b = pySlice (natToBitsBE 8 mj ++ (natToBitsBE 24 ttl ++ natToBitsBE 32 mn)) (a - 64) (b - 64) := by
    intro a b ha
    rw [q6 a b (by omega), pySlice_peel 16 _ _ w7 (a - 48) (b - 48) (by omega)]
    congr 1
  have s8 : pySlice (natToBitsBE 8 tf ++ (natToBitsBE 8 i1 ++ (natToBitsBE 8 i2 ++ (n1 ++ (n2 ++ (natToBitsBE 16 sid ++ (natToBitsBE 16 iid ++ (natToBitsBE 8 mj ++ (natToBitsBE 24 ttl ++ natToBitsBE 32 mn))))))))) 64 72 = natToBitsBE 8 mj := by
    rw [q7 64 72 (by norm_num)]
    norm_num
    exact pySlice_first 8 _ _ w8
  have q8 : ∀ a b : Nat, 72 ≤ a → pySlice (natToBitsBE 8 tf ++ (natToBitsBE 8 i1 ++ (natToBitsBE 8 i2 ++ (n1 ++ (n2 ++ (natToBitsBE 16 sid ++ (natToBitsBE 16 iid ++ (natToBitsBE 8 mj ++ (natToBitsBE 24 ttl ++ natToBitsBE 32 mn))))))))) a b = pySlice (natToBitsBE 24 ttl ++ natToBitsBE 32 mn) (a - 72) (b - 72) := by
    intro a b ha
    rw [q7 a b (by omega), pySlice_peel 8 _ _ w8 (a - 64) (b - 64) (by omega)]
    congr 1
  have s9 : pySlice (natToBitsBE 8 tf ++ (natToBitsBE 8 i1 ++ (natToBitsBE 8 i2 ++ (n1 ++ (n2 ++ (natToBitsBE 16 sid ++ (natToBitsBE 16 iid ++ (natToBitsBE 8 mj ++ (natToBitsBE 24 ttl ++ natToBitsBE 32 mn))))))))) 72 96 = natToBitsBE 24 ttl := by
    rw [q8 72 96 (by norm_num)]
    norm_num
    exact pySlice_first 24 _ _ w9
  have q9 : ∀ a b : Nat, 96 ≤ a → pySlice (natToBitsBE 8 tf ++ (natToBitsBE 8 i1 ++ (natToBitsBE 8 i2 ++ (n1 ++ (n2 ++ (natToBitsBE 16 sid ++ (natToBitsBE 16 iid ++ (natToBitsBE 8 mj ++ (natToBitsBE 24 ttl ++ natToBitsBE 32 mn))))))))) a b = pySlice (natToBitsBE 32 mn) (a - 96) (b - 96) := by
    intro a b ha
    rw [q8 a b (by omega), pySlice_peel 24 _ _ w9 (a - 72) (b - 72) (by omega)]
    congr 1
  have s10 : pySlice (natToBitsBE 8 tf ++ (natToBitsBE 8 i1 ++ (natToBitsBE 8 i2 ++ (n1 ++ (n2 ++ (natToBitsBE 16 sid ++ (natToBitsBE 16 iid ++ (natToBitsBE 8 mj ++ (natToBitsBE 24 ttl ++ natToBitsBE 32 mn))))))))) 96 128 = natToBitsBE 32 mn := by
    rw [q9 96 128 (by norm_num)]
    norm_num
    have hfull := pySlice_full (natToBitsBE 32 mn)
    rw [w10] at hfull
    exact hfull
  rw [s1, s2, s3, s4, s5, s6, s7, s8, s9, s10]
  rw [ba2int_bits 8 tf (by norm_num) h1, ba2int_bits 8 i1 (by norm_num) h2,
    ba2int_bits 8 i2 (by norm_num) h3, ba2int_bits 16 sid (by norm_num) h6,
    ba2int_bits 16 iid (by norm_num) h7, ba2int_bits 8 mj (by norm_num) h8,
    ba2int_bits 24 ttl (by norm_num) h9, ba2int_bits 32 mn (by norm_num) h10]
  simp only [except_bind_ok, except_pure_eq, except_bind_ok2]
  unfold ServiceEntry.init
  rw [validateBitInt_ok _ _ _ h1, validateBitInt_ok _ _ _ h2,
    validateBitInt_ok _ _ _ h3, validateBitArr_ok _ _ _ h4,
    validateBitArr_ok _ _ _ h5, validateBitInt_ok _ _ _ h6,
    validateBitInt_ok _ _ _ h7, validateBitInt_ok _ _ _ h8,
    validateBitInt_ok _ _ _ h9, validateBitInt_ok _ _ _ h10]
  simp only [except_bind_ok, except_pure_eq, except_bind_ok2]

theorem intTo01_bits (w v : Nat) (hw : w ≠ 0) (h : v < 2 ^ w) :
    intTo01 (natToBitsBE w v) = .ok v := by
  unfold intTo01
  rw [if_neg (by simp [List.isEmpty_iff, ← List.length_eq_zero, natToBitsBE_length]; omega),
    bitsToNat_natToBitsBE w v h]

theorem eventgroupEntry_roundtrip (e : EventgroupEntry) (h : e.Valid) :
    (EventgroupEntry.encode e).bind EventgroupEntry.decode = .ok e := by
  obtain ⟨tf, i1, i2, n1, n2, sid, iid, mj, ttl, res, cnt, egid⟩ := e
  obtain ⟨h1, h2, h3, h4, h5, h6, h7, h8, h9, h10, h11, h12⟩ := h
  simp only at h1 h2 h3 h4 h5 h6 h7 h8 h9 h10 h11 h12
  have w1 : (natToBitsBE 8 tf).length = 8 := natToBitsBE_length 8 tf
  have w2 : (natToBitsBE 8 i1).length = 8 := natToBitsBE_length 8 i1
  have w3 : (natToBitsBE 8 i2).length = 8 := natToBitsBE_length 8 i2
  have w6 : (natToBitsBE 16 sid).length = 16 := natToBitsBE_length 16 sid
  have w7 : (natToBitsBE 16 iid).length = 16 := natToBitsBE_length 16 iid
  have w8 : (natToBitsBE 8 mj).length = 8 := natToBitsBE_length 8 mj
  have w9 : (natToBitsBE 24 ttl).length = 24 := natToBitsBE_length 24 ttl
  have w12 : (natToBitsBE 16 egid).length = 16 := natToBitsBE_length 16 egid
  have henc : EventgroupEntry.encode ⟨tf, i1, i2, n1, n2, sid, iid, mj, ttl, res, cnt, egid⟩ =
      .ok (bitsToBytes (natToBitsBE 8 tf ++ (natToBitsBE 8 i1 ++ (natToBitsBE 8 i2 ++ (n1 ++ (n2 ++ (natToBitsBE 16 sid ++ (natToBitsBE 16 iid ++ (natToBitsBE 8 mj ++ (natToBitsBE 24 ttl ++ (res ++ (cnt ++ natToBitsBE 16 egid)))))))))))) := by
    unfold EventgroupEntry.encode
    rw [toBytesBits_ok _ _ (show tf < 256 ^ (8 / 8) by norm_num; omega)]
    rw [toBytesBits_ok _ _ (show i1 < 256 ^ (8 / 8) by norm_num; omega)]
    rw [toBytesBits_ok _ _ (show i2 < 256 ^ (8 / 8) by norm_num; omega)]
    rw [toBytesBits_ok _ _ (show sid < 256 ^ (16 / 8) by norm_num; omega)]
    rw [toBytesBits_ok _ _ (show iid < 256 ^ (16 / 8) by norm_num; omega)]
    rw [toBytesBits_ok _ _ (show mj < 256 ^ (8 / 8) by norm_num; omega)]
    rw [toBytesBits_ok _ _ (show ttl < 256 ^ (24 / 8) by norm_num; omega)]
    rw [toBytesBits_ok _ _ (show egid < 256 ^ (16 / 8) by norm_num; omega)]
    simp only [except_bind_ok, except_pure_eq, if_pos h4, if_pos h5, if_pos h10, if_pos h11]
    simp [List.append_assoc]
  rw [henc, except_bind_ok2]
  have hlenE : (natToBitsBE 8 tf ++ (natToBitsBE 8 i1 ++ (natToBitsBE 8 i2 ++ (n1 ++ (n2 ++ (natToBitsBE 16 sid ++ (natToBitsBE 16 iid ++ (natToBitsBE 8 mj ++ (natToBitsBE 24 ttl ++ (res ++ (cnt ++ natToBitsBE 16 egid))))))))))).length = 128 := by
    simp [natToBitsBE_length, h4, h5, h10, h11]
  have hbits := bytesToBits_bitsToBytes _ (hlenE ▸ (⟨16, rfl⟩ : (8:Nat) ∣ 128))
  have hserlen : (bitsToBytes (natToBitsBE 8 tf ++ (natToBitsBE 8 i1 ++ (natToBitsBE 8 i2 ++ (n1 ++ (n2 ++ (natToBitsBE 16 sid ++ (natToBitsBE 16 iid ++ (natToBitsBE 8 mj ++ (natToBitsBE 24 ttl ++ (res ++ (cnt ++ natToBitsBE 16 egid)))))))))))).length = 16 := by
    have hx := bytesToBits_length (bitsToBytes (natToBitsBE 8 tf ++ (natToBitsBE 8 i1 ++ (natToBitsBE 8 i2 ++ (n1 ++ (n2 ++ (natToBitsBE 16 sid ++ (natToBitsBE 16 iid ++ (natToBitsBE 8 mj ++ (natToBitsBE 24 ttl ++ (res ++ (cnt ++ natToBitsBE 16 egid))))))))))))
    rw [hbits, hlenE] at hx
    omega
  unfold EventgroupEntry.decode
  rw [hserlen]
  simp only [ne_eq, not_true_eq_false, if_false, reduceIte, hbits]
  have t1 : ((natToBitsBE 8 tf ++ (natToBitsBE 8 i1 ++ (natToBitsBE 8 i2 ++ (n1 ++ (n2 ++ (natToBitsBE 16 sid ++ (natToBitsBE 16 iid ++ (natToBitsBE 8 mj ++ (natToBitsBE 24 ttl ++ (res ++ (cnt ++ natToBitsBE 16 egid)))))))))))).take 8 = natToBitsBE 8 tf := List.take_left' w1
  have d1 : ((natToBitsBE 8 tf ++ (natToBitsBE 8 i1 ++ (natToBitsBE 8 i2 ++ (n1 ++ (n2 ++ (natToBitsBE 16 sid ++ (natToBitsBE 16 iid ++ (natToBitsBE 8 mj ++ (natToBitsBE 24 ttl ++ (res ++ (cnt ++ natToBitsBE 16 egid)))))))))))).drop 8 = (natToBitsBE 8 i1 ++ (natToBitsBE 8 i2 ++ (n1 ++ (n2 ++ (natToBitsBE 16 sid ++ (natToBitsBE 16 iid ++ (natToBitsBE 8 mj ++ (natToBitsBE 24 ttl ++ (res ++ (cnt ++ natToBitsBE 16 egid)))))))))) := List.drop_left' w1
  have t2 : ((natToBitsBE 8 i1 ++ (natToBitsBE 8 i2 ++ (n1 ++ (n2 ++ (natToBitsBE 16 sid ++ (natToBitsBE 16 iid ++ (natToBitsBE 8 mj ++ (natToBitsBE 24 ttl ++ (res ++ (cnt ++ natToBitsBE 16 egid))))))))))).take 8 = natToBitsBE 8 i1 := List.take_left' w2
  have d2 : ((natToBitsBE 8 i1 ++ (natToBitsBE 8 i2 ++ (n1 ++ (n2 ++ (natToBitsBE 16 sid ++ (natToBitsBE 16 iid ++ (natToBitsBE 8 mj ++ (natToBitsBE 24 ttl ++ (res ++ (cnt ++ natToBitsBE 16 egid))))))))))).drop 8 = (natToBitsBE 8 i2 ++ (n1 ++ (n2 ++ (natToBitsBE 16 sid ++ (natToBitsBE 16 iid ++ (natToBitsBE 8 mj ++ (natToBitsBE 24 ttl ++ (res ++ (cnt ++ natToBitsBE 16 egid))))))))) := List.drop_left' w2
  have t3 : ((natToBitsBE 8 i2 ++ (n1 ++ (n2 ++ (natToBitsBE 16 sid ++ (natToBitsBE 16 iid ++ (natToBitsBE 8 mj ++ (natToBitsBE 24 ttl ++ (res ++ (cnt ++ natToBitsBE 16 egid)))))))))).take 8 = natToBitsBE 8 i2 := List.take_left' w3
  have d3 : ((natToBitsBE 8 i2 ++ (n1 ++ (n2 ++ (natToBitsBE 16 sid ++ (natToBitsBE 16 iid ++ (natToBitsBE 8 mj ++ (natToBitsBE 24 ttl ++ (res ++ (cnt ++ natToBitsBE 16 egid)))))))))).drop 8 = (n1 ++ (n2 ++ (natToBitsBE 16 sid ++ (natToBitsBE 16 iid ++ (natToBitsBE 8 mj ++ (natToBitsBE 24 ttl ++ (res ++ (cnt ++ natToBitsBE 16 egid)))))))) := List.drop_left' w3
  have t4 : ((n1 ++ (n2 ++ (natToBitsBE 16 sid ++ (natToBitsBE 16 iid ++ (natToBitsBE 8 mj ++ (natToBitsBE 24 ttl ++ (res ++ (cnt ++ natToBitsBE 16 egid))))))))).take 4 = n1 := List.take_left' h4
  have d4 : ((n1 ++ (n2 ++ (natToBitsBE 16 sid ++ (natToBitsBE 16 iid ++ (natToBitsBE 8 mj ++ (natToBitsBE 24 ttl ++ (res ++ (cnt ++ natToBitsBE 16 egid))))))))).drop 4 = (n2 ++ (natToBitsBE 16 sid ++ (natToBitsBE 16 iid ++ (natToBitsBE 8 mj ++ (natToBitsBE 24 ttl ++ (res ++ (cnt ++ natToBitsBE 16 egid))))))) := List.drop_left' h4
  have t5 : ((n2 ++ (natToBitsBE 16 sid ++ (natToBitsBE 16 iid ++ (natToBitsBE 8 mj ++ (natToBitsBE 24 ttl ++ (res ++ (cnt ++ natToBitsBE 16 egid)))))))).take 4 = n2 := List.take_left' h5
  have d5 : ((n2 ++ (natToBitsBE 16 sid ++ (natToBitsBE 16 iid ++ (natToBitsBE 8 mj ++ (natToBitsBE 24 ttl ++ (res ++ (cnt ++ natToBitsBE 16 egid)))))))).drop 4 = (natToBitsBE 16 sid ++ (natToBitsBE 16 iid ++ (natToBitsBE 8 mj ++ (natToBitsBE 24 ttl ++ (res ++ (cnt ++ natToBitsBE 16 egid)))))) := List.drop_left' h5
  have t6 : ((natToBitsBE 16 sid ++ (natToBitsBE 16 iid ++ (natToBitsBE 8 mj ++ (natToBitsBE 24 ttl ++ (res ++ (cnt ++ natToBitsBE 16 egid))))))).take 16 = natToBitsBE 16 sid := List.take_left' w6
  have d6 : ((natToBitsBE 16 sid ++ (natToBitsBE 16 iid ++ (natToBitsBE 8 mj ++ (natToBitsBE 24 ttl ++ (res ++ (cnt ++ natToBitsBE 16 egid))))))).drop 16 = (natToBitsBE 16 iid ++ (natToBitsBE 8 mj ++ (natToBitsBE 24 ttl ++ (res ++ (cnt ++ natToBitsBE 16 egid))))) := List.drop_left' w6
  have t7 : ((natToBitsBE 16 iid ++ (natToBitsBE 8 mj ++ (natToBitsBE 24 ttl ++ (res ++ (cnt ++ natToBitsBE 16 egid)))))).take 16 = natToBitsBE 16 iid := List.take_left' w7
  have d7 : ((natToBitsBE 16 iid ++ (natToBitsBE 8 mj ++ (natToBitsBE 24 ttl ++ (res ++ (cnt ++ natToBitsBE 16 egid)))))).drop 16 = (natToBitsBE 8 mj ++ (natToBitsBE 24 ttl ++ (res ++ (cnt ++ natToBitsBE 16 egid)))) := List.drop_left' w7
  have t8 : ((natToBitsBE 8 mj ++ (natToBitsBE 24 ttl ++ (res ++ (cnt ++ natToBitsBE 16 egid))))).take 8 = natToBitsBE 8 mj := List.take_left' w8
  have d8 : ((natToBitsBE 8 mj ++ (natToBitsBE 24 ttl ++ (res ++ (cnt ++ natToBitsBE 16 egid))))).drop 8 = (natToBitsBE 24 ttl ++ (res ++ (cnt ++ natToBitsBE 16 egid))) := List.drop_left' w8
  have t9 : ((natToBitsBE 24 ttl ++ (res ++ (cnt ++ natToBitsBE 16 egid)))).take 24 = natToBitsBE 24 ttl := List.take_left' w9
  have d9 : ((natToBitsBE 24 ttl ++ (res ++ (cnt ++ natToBitsBE 16 egid)))).drop 24 = (res ++ (cnt ++ natToBitsBE 16 egid)) := List.drop_left' w9
  have t10 : ((res ++ (cnt ++ natToBitsBE 16 egid))).take 12 = res := List.take_left' h10
  have d10 : ((res ++ (cnt ++ natToBitsBE 16 egid))).drop 12 = (cnt ++ natToBitsBE 16 egid) := List.drop_left' h10
  have t11 : ((cnt ++ natToBitsBE 16 egid)).take 4 = cnt := List.take_left' h11
  have d11 : ((cnt ++ natToBitsBE 16 egid)).drop 4 = natToBitsBE 16 egid := List.drop_left' h11
  have t12 : (natToBitsBE 16 egid).take 16 = natToBitsBE 16 egid := by
    have hq := List.take_length (natToBitsBE 16 egid)
    rw [w12] at hq
    exact hq
  simp only [t1, d1, t2, d2, t3, d3, t4, d4, t5, d5, t6, d6, t7, d7, t8, d8, t9, d9, t10, d10, t11, d11, t12]
  rw [intTo01_bits 8 tf (by norm_num) h1]
  simp only [except_bind_ok]
  rw [intTo01_bits 8 i1 (by norm_num) h2]
  simp only [except_bind_ok]
  rw [intTo01_bits 8 i2 (by norm_num) h3]
  simp only [except_bind_ok]
  rw [intTo01_bits 16 sid (by norm_num) h6]
  simp only [except_bind_ok]
  rw [intTo01_bits 16 iid (by norm_num) h7]
  simp only [except_bind_ok]
  rw [intTo01_bits 8 mj (by norm_num) h8]
  simp only [except_bind_ok]
  rw [intTo01_bits 24 ttl (by norm_num) h9]
  simp only [except_bind_ok]
  rw [intTo01_bits 16 egid (by norm_num) h12]
  simp only [except_bind_ok]
  unfold EventgroupEntry.init
  rw [validateBitInt_ok _ _ _ h1, validateBitInt_ok _ _ _ h2,
    validateBitInt_ok _ _ _ h3, validateBitArr_ok _ _ _ h4,
    validateBitArr_ok _ _ _ h5, validateBitInt_ok _ _ _ h6,
    validateBitInt_ok _ _ _ h7, validateBitInt_ok _ _ _ h8,
    validateBitInt_ok _ _ _ h9, validateBitArr_ok _ _ _ h10,
    validateBitArr_ok _ _ _ h11, validateBitInt_ok _ _ _ h12]
  simp only [except_bind_ok, except_pure_eq, except_bind_ok2]

theorem bytes_mod_id (s : List Nat) (h : ∀ b ∈ s, b < 256) :
    s.map (· % 256) = s := by
  induction s with
  | nil => rfl
  | cons b t ih =>
    simp only [List.map_cons, List.cons.injEq]
    constructor
    · exact Nat.mod_eq_of_lt (h b (by simp))
    · exact ih fun x hx => h x (by simp [hx])

theorem ipv4Option_roundtrip (o : IPv4Option) (h : o.Valid) :
    (IPv4Option.encode o).bind IPv4Option.decode = .ok o := by
  obtain ⟨ty, fl, addr, tp, port⟩ := o
  obtain ⟨h1, h2, h3, h4, h5, h6⟩ := h
  simp only at h1 h2 h3 h4 h5 h6
  have wl : (natToBitsBE 16 0x0009).length = 16 := natToBitsBE_length 16 _
  have wt : (natToBitsBE 8 ty).length = 8 := natToBitsBE_length 8 ty
  have wz7 : (List.replicate 7 false).length = 7 := List.length_replicate 7 false
  have wa : (bytesToBits addr).length = 32 := by
    rw [bytesToBits_length, h3]
  have wz8 : (List.replicate 8 false).length = 8 := List.length_replicate 8 false
  have wp : (natToBitsBE 8 tp).length = 8 := natToBitsBE_length 8 tp
  have wq : (natToBitsBE 16 port).length = 16 := natToBitsBE_length 16 port
  have henc : IPv4Option.encode ⟨ty, fl, addr, tp, port⟩ =
      .ok (bitsToBytes (natToBitsBE 16 0x0009 ++ (natToBitsBE 8 ty ++ (fl ++ (List.replicate 7 false ++ (bytesToBits addr ++ (List.replicate 8 false ++ (natToBitsBE 8 tp ++ natToBitsBE 16 port)))))))) := by
    unfold IPv4Option.encode IPv4Option.length
    rw [toBytesBits_ok _ _ (show (0x0009 : Nat) < 256 ^ (16 / 8) by norm_num)]
    rw [toBytesBits_ok _ _ (show ty < 256 ^ (8 / 8) by norm_num; omega)]
    rw [toBytesBits_ok _ _ (show tp < 256 ^ (8 / 8) by norm_num; omega)]
    rw [toBytesBits_ok _ _ (show port < 256 ^ (16 / 8) by norm_num; omega)]
    simp only [except_bind_ok, except_pure_eq]
    simp [List.append_assoc]
  rw [henc, except_bind_ok2]
  have hlenE : (natToBitsBE 16 0x0009 ++ (natToBitsBE 8 ty ++ (fl ++ (List.replicate 7 false ++ (bytesToBits addr ++ (List.replicate 8 false ++ (natToBitsBE 8 tp ++ natToBitsBE 16 port))))))).length = 96 := by
    simp [natToBitsBE_length, bytesToBits_length, h2, h3]
  have hbits := bytesToBits_bitsToBytes _ (hlenE ▸ (⟨12, rfl⟩ : (8:Nat) ∣ 96))
  have hserlen : (bitsToBytes (natToBitsBE 16 0x0009 ++ (natToBitsBE 8 ty ++ (fl ++ (List.replicate 7 false ++ (bytesToBits addr ++ (List.replicate 8 false ++ (natToBitsBE 8 tp ++ natToBitsBE 16 port)))))))).length = 12 := by
    have hx := bytesToBits_length (bitsToBytes (natToBitsBE 16 0x0009 ++ (natToBitsBE 8 ty ++ (fl ++ (List.replicate 7 false ++ (bytesToBits addr ++ (List.replicate 8 false ++ (natToBitsBE 8 tp ++ natToBitsBE 16 port))))))))
    rw [hbits, hlenE] at hx
    omega
  unfold IPv4Option.decode
  rw [hserlen]
  simp only [ne_eq, not_true_eq_false, if_false, reduceIte, hbits]
  have q1 : ∀ a b : Nat, 16 ≤ a → pySlice (natToBitsBE 16 0x0009 ++ (natToBitsBE 8 ty ++ (fl ++ (List.replicate 7 false ++ (bytesToBits addr ++ (List.replicate 8 false ++ (natToBitsBE 8 tp ++ natToBitsBE 16 port))))))) a b = pySlice (natToBitsBE 8 ty ++ (fl ++ (List.replicate 7 false ++ (bytesToBits addr ++ (List.replicate 8 false ++ (natToBitsBE 8 tp ++ natToBitsBE 16 port)))))) (a - 16) (b - 16) := fun a b ha => pySlice_peel 16 _ _ wl a b ha
  have q2 : ∀ a b : Nat, 24 ≤ a → pySlice (natToBitsBE 16 0x0009 ++ (natToBitsBE 8 ty ++ (fl ++ (List.replicate 7 false ++ (bytesToBits addr ++ (List.replicate 8 false ++ (natToBitsBE 8 tp ++ natToBitsBE 16 port))))))) a b = pySlice (fl ++ (List.replicate 7 false ++ (bytesToBits addr ++ (List.replicate 8 false ++ (natToBitsBE 8 tp ++ natToBitsBE 16 port))))) (a - 24) (b - 24) := by
    intro a b ha
    rw [q1 a b (by omega), pySlice_peel 8 _ _ wt (a - 16) (b - 16) (by omega)]
    congr 1
  have q3 : ∀ a b : Nat, 25 ≤ a → pySlice (natToBitsBE 16 0x0009 ++ (natToBitsBE 8 ty ++ (fl ++ (List.replicate 7 false ++ (bytesToBits addr ++ (List.replicate 8 false ++ (natToBitsBE 8 tp ++ natToBitsBE 16 port))))))) a b = pySlice (List.replicate 7 false ++ (bytesToBits addr ++ (List.replicate 8 false ++ (natToBitsBE 8 tp ++ natToBitsBE 16 port)))) (a - 25) (b - 25) := by
    intro a b ha
    rw [q2 a b (by omega), pySlice_peel 1 _ _ h2 (a - 24) (b - 24) (by omega)]
    congr 1
  have q4 : ∀ a b : Nat, 32 ≤ a → pySlice (natToBitsBE 16 0x0009 ++ (natToBitsBE 8 ty ++ (fl ++ (List.replicate 7 false ++ (bytesToBits addr ++ (List.replicate 8 false ++ (natToBitsBE 8 tp ++ natToBitsBE 16 port))))))) a b = pySlice (bytesToBits addr ++ (List.replicate 8 false ++ (natToBitsBE 8 tp ++ natToBitsBE 16 port))) (a - 32) (b - 32) := by
    intro a b ha
    rw [q3 a b (by omega), pySlice_peel 7 _ _ wz7 (a - 25) (b - 25) (by omega)]
    congr 1
  have q5 : ∀ a b : Nat, 64 ≤ a → pySlice (natToBitsBE 16 0x0009 ++ (natToBitsBE 8 ty ++ (fl ++ (List.replicate 7 false ++ (bytesToBits addr ++ (List.replicate 8 false ++ (natToBitsBE 8 tp ++ natToBitsBE 16 port))))))) a b = pySlice (List.replicate 8 false ++ (natToBitsBE 8 tp ++ natToBitsBE 16 port)) (a - 64) (b - 64) := by
    intro a b ha
    rw [q4 a b (by omega), pySlice_peel 32 _ _ wa (a - 32) (b - 32) (by omega)]
    congr 1
  have q6 : ∀ a b : Nat, 72 ≤ a → pySlice (natToBitsBE 16 0x0009 ++ (natToBitsBE 8 ty ++ (fl ++ (List.replicate 7 false ++ (bytesToBits addr ++ (List.replicate 8 false ++ (natToBitsBE 8 tp ++ natToBitsBE 16 port))))))) a b = pySlice (natToBitsBE 8 tp ++ natToBitsBE 16 port) (a - 72) (b - 72) := by
    intro a b ha
    rw [q5 a b (by omega), pySlice_peel 8 _ _ wz8 (a - 64) (b - 64) (by omega)]
    congr 1
  have q7 : ∀ a b : Nat, 80 ≤ a → pySlice (natToBitsBE 16 0x0009 ++ (natToBitsBE 8 ty ++ (fl ++ (List.replicate 7 false ++ (bytesToBits addr ++ (List.replicate 8 false ++ (natToBitsBE 8 tp ++ natToBitsBE 16 port))))))) a b = pySlice (natToBitsBE 16 port) (a - 80) (b - 80) := by
    intro a b ha
    rw [q6 a b (by omega), pySlice_peel 8 _ _ wp (a - 72) (b - 72) (by omega)]
    congr 1
  have s1 : pySlice (natToBitsBE 16 0x0009 ++ (natToBitsBE 8 ty ++ (fl ++ (List.replicate 7 false ++ (bytesToBits addr ++ (List.replicate 8 false ++ (natToBitsBE 8 tp ++ natToBitsBE 16 port))))))) 16 24 = natToBitsBE 8 ty := by
    rw [q1 16 24 (by norm_num)]
    norm_num
    exact pySlice_first 8 _ _ wt
  have s2 : pySlice (natToBitsBE 16 0x0009 ++ (natToBitsBE 8 ty ++ (fl ++ (List.replicate 7 false ++ (bytesToBits addr ++ (List.replicate 8 false ++ (natToBitsBE 8 tp ++ natToBitsBE 16 port))))))) 24 25 = fl := by
    rw [q2 24 25 (by norm_num)]
    norm_num
    exact pySlice_first 1 _ _ h2
  have s4 : pySlice (natToBitsBE 16 0x0009 ++ (natToBitsBE 8 ty ++ (fl ++ (List.replicate 7 false ++ (bytesToBits addr ++ (List.replicate 8 false ++ (natToBitsBE 8 tp ++ natToBitsBE 16 port))))))) 32 64 = bytesToBits addr := by
    rw [q4 32 64 (by norm_num)]
    norm_num
    exact pySlice_first 32 _ _ wa
  have s6 : pySlice (natToBitsBE 16 0x0009 ++ (natToBitsBE 8 ty ++ (fl ++ (List.replicate 7 false ++ (bytesToBits addr ++ (List.replicate 8 false ++ (natToBitsBE 8 tp ++ natToBitsBE 16 port))))))) 72 80 = natToBitsBE 8 tp := by
    rw [q6 72 80 (by norm_num)]
    norm_num
    exact pySlice_first 8 _ _ wp
  have s7 : pySlice (natToBitsBE 16 0x0009 ++ (natToBitsBE 8 ty ++ (fl ++ (List.replicate 7 false ++ (bytesToBits addr ++ (List.replicate 8 false ++ (natToBitsBE 8 tp ++ natToBitsBE 16 port))))))) 80 96 = natToBitsBE 16 port := by
    rw [q7 80 96 (by norm_num)]
    norm_num
    have hfull := pySlice_full (natToBitsBE 16 port)
    rw [wq] at hfull
    exact hfull
  rw [s1, s2, s4, s6, s7]
  rw [ba2int_bits 8 ty (by norm_num) h1, ba2int_bits 8 tp (by norm_num) h5,
    ba2int_bits 16 port (by norm_num) h6]
  have haddr : bitsToBytes (bytesToBits addr) = addr := by
    rw [bitsToBytes_bytesToBits]
    exact bytes_mod_id addr h4
  rw [haddr]
  simp only [except_bind_ok, except_pure_eq, except_bind_ok2]
  unfold IPv4Option.init
  rw [validateBitInt_ok _ _ _ h1, validateBitArr_ok _ _ _ h2,
    validateBitInt_ok _ _ _ h5, validateBitInt_ok _ _ _ h6]
  have hvaddr : validateIPv4Address addr = .ok () := by
    unfold validateIPv4Address
    rw [if_pos ⟨h3, by simpa [List.all_eq_true, decide_eq_true_iff] using h4⟩]
  rw [hvaddr]
  simp only [except_bind_ok, except_pure_eq, except_bind_ok2]

theorem ipv6Option_roundtrip (o : IPv6Option) (h : o.Valid) :
    (IPv6Option.encode o).bind IPv6Option.decode = .ok o := by
  obtain ⟨ty, fl, addr, tp, port⟩ := o
  obtain ⟨h1, h2, h3, h4, h5, h6⟩ := h
  simp only at h1 h2 h3 h4 h5 h6
  have wl : (natToBitsBE 16 0x0015).length = 16 := natToBitsBE_length 16 _
  have wt : (natToBitsBE 8 ty).length = 8 := natToBitsBE_length 8 ty
  have wz7 : (List.replicate 7 false).length = 7 := List.length_replicate 7 false
  have wa : (bytesToBits addr).length = 128 := by
    rw [bytesToBits_length, h3]
  have wz8 : (List.replicate 8 false).length = 8 := List.length_replicate 8 false
  have wp : (natToBitsBE 8 tp).length = 8 := natToBitsBE_length 8 tp
  have wq : (natToBitsBE 16 port).length = 16 := natToBitsBE_length 16 port
  have henc : IPv6Option.encode ⟨ty, fl, addr, tp, port⟩ =
      .ok (bitsToBytes (natToBitsBE 16 0x0015 ++ (natToBitsBE 8 ty ++ (fl ++ (List.replicate 7 false ++ (bytesToBits addr ++ (List.replicate 8 false ++ (natToBitsBE 8 tp ++ natToBitsBE 16 port)))))))) := by
    unfold IPv6Option.encode IPv6Option.length
    rw [toBytesBits_ok _ _ (show (0x0015 : Nat) < 256 ^ (16 / 8) by norm_num)]
    rw [toBytesBits_ok _ _ (show ty < 256 ^ (8 / 8) by norm_num; omega)]
    rw [toBytesBits_ok _ _ (show tp < 256 ^ (8 / 8) by norm_num; omega)]
    rw [toBytesBits_ok _ _ (show port < 256 ^ (16 / 8) by norm_num; omega)]
    simp only [except_bind_ok, except_pure_eq]
    simp [List.append_assoc]
  rw [henc, except_bind_ok2]
  have hlenE : (natToBitsBE 16 0x0015 ++ (natToBitsBE 8 ty ++ (fl ++ (List.replicate 7 false ++ (bytesToBits addr ++ (List.replicate 8 false ++ (natToBitsBE 8 tp ++ natToBitsBE 16 port))))))).length = 192 := by
    simp [natToBitsBE_length, bytesToBits_length, h2, h3]
  have hbits := bytesToBits_bitsToBytes _ (hlenE ▸ (⟨24, rfl⟩ : (8:Nat) ∣ 192))
  have hserlen : (bitsToBytes (natToBitsBE 16 0x0015 ++ (natToBitsBE 8 ty ++ (fl ++ (List.replicate 7 false ++ (bytesToBits addr ++ (List.replicate 8 false ++ (natToBitsBE 8 tp ++ natToBitsBE 16 port)))))))).length = 24 := by
    have hx := bytesToBits_length (bitsToBytes (natToBitsBE 16 0x0015 ++ (natToBitsBE 8 ty ++ (fl ++ (List.replicate 7 false ++ (bytesToBits addr ++ (List.replicate 8 false ++ (natToBitsBE 8 tp ++ natToBitsBE 16 port))))))))
    rw [hbits, hlenE] at hx
    omega
  unfold IPv6Option.decode
  rw [hserlen]
  simp only [ne_eq, not_true_eq_false, if_false, reduceIte, hbits]
  have q1 : ∀ a b : Nat, 16 ≤ a → pySlice (natToBitsBE 16 0x0015 ++ (natToBitsBE 8 ty ++ (fl ++ (List.replicate 7 false ++ (bytesToBits addr ++ (List.replicate 8 false ++ (natToBitsBE 8 tp ++ natToBitsBE 16 port))))))) a b = pySlice (natToBitsBE 8 ty ++ (fl ++ (List.replicate 7 false ++ (bytesToBits addr ++ (List.replicate 8 false ++ (natToBitsBE 8 tp ++ natToBitsBE 16 port)))))) (a - 16) (b - 16) := fun a b ha => pySlice_peel 16 _ _ wl a b ha
  have q2 : ∀ a b : Nat, 24 ≤ a → pySlice (natToBitsBE 16 0x0015 ++ (natToBitsBE 8 ty ++ (fl ++ (List.replicate 7 false ++ (bytesToBits addr ++ (List.replicate 8 false ++ (natToBitsBE 8 tp ++ natToBitsBE 16 port))))))) a b = pySlice (fl ++ (List.replicate 7 false ++ (bytesToBits addr ++ (List.replicate 8 false ++ (natToBitsBE 8 tp ++ natToBitsBE 16 port))))) (a - 24) (b - 24) := by
    intro a b ha
    rw [q1 a b (by omega), pySlice_peel 8 _ _ wt (a - 16) (b - 16) (by omega)]
    congr 1
  have q3 : ∀ a b : Nat, 25 ≤ a → pySlice (natToBitsBE 16 0x0015 ++ (natToBitsBE 8 ty ++ (fl ++ (List.replicate 7 false ++ (bytesToBits addr ++ (List.replicate 8 false ++ (natToBitsBE 8 tp ++ natToBitsBE 16 port))))))) a b = pySlice (List.replicate 7 false ++ (bytesToBits addr ++ (List.replicate 8 false ++ (natToBitsBE 8 tp ++ natToBitsBE 16 port)))) (a - 25) (b - 25) := by
    intro a b ha
    rw [q2 a b (by omega), pySlice_peel 1 _ _ h2 (a - 24) (b - 24) (by omega)]
    congr 1
  have q4 : ∀ a b : Nat, 32 ≤ a → pySlice (natToBitsBE 16 0x0015 ++ (natToBitsBE 8 ty ++ (fl ++ (List.replicate 7 false ++ (bytesToBits addr ++ (List.replicate 8 false ++ (natToBitsBE 8 tp ++ natToBitsBE 16 port))))))) a b = pySlice (bytesToBits addr ++ (List.replicate 8 false ++ (natToBitsBE 8 tp ++ natToBitsBE 16 port))) (a - 32) (b - 32) := by
    intro a b ha
    rw [q3 a b (by omega), pySlice_peel 7 _ _ wz7 (a - 25) (b - 25) (by omega)]
    congr 1
  have q5 : ∀ a b : Nat, 160 ≤ a → pySlice (natToBitsBE 16 0x0015 ++ (natToBitsBE 8 ty ++ (fl ++ (List.replicate 7 false ++ (bytesToBits addr ++ (List.replicate 8 false ++ (natToBitsBE 8 tp ++ natToBitsBE 16 port))))))) a b = pySlice (List.replicate 8 false ++ (natToBitsBE 8 tp ++ natToBitsBE 16 port)) (a - 160) (b - 160) := by
    intro a b ha
    rw [q4 a b (by omega), pySlice_peel 128 _ _ wa (a - 32) (b - 32) (by omega)]
    congr 1
  have q6 : ∀ a b : Nat, 168 ≤ a → pySlice (natToBitsBE 16 0x0015 ++ (natToBitsBE 8 ty ++ (fl ++ (List.replicate 7 false ++ (bytesToBits addr ++ (List.replicate 8 false ++ (natToBitsBE 8 tp ++ natToBitsBE 16 port))))))) a b = pySlice (natToBitsBE 8 tp ++ natToBitsBE 16 port) (a - 168) (b - 168) := by
    intro a b ha
    rw [q5 a b (by omega), pySlice_peel 8 _ _ wz8 (a - 160) (b - 160) (by omega)]
    congr 1
  have q7 : ∀ a b : Nat, 176 ≤ a → pySlice (natToBitsBE 16 0x0015 ++ (natToBitsBE 8 ty ++ (fl ++ (List.replicate 7 false ++ (bytesToBits addr ++ (List.replicate 8 false ++ (natToBitsBE 8 tp ++ natToBitsBE 16 port))))))) a b = pySlice (natToBitsBE 16 port) (a - 176) (b - 176) := by
    intro a b ha
    rw [q6 a b (by omega), pySlice_peel 8 _ _ wp (a - 168) (b - 168) (by omega)]
    congr 1
  have s1 : pySlice (natToBitsBE 16 0x0015 ++ (natToBitsBE 8 ty ++ (fl ++ (List.replicate 7 false ++ (bytesToBits addr ++ (List.replicate 8 false ++ (natToBitsBE 8 tp ++ natToBitsBE 16 port))))))) 16 24 = natToBitsBE 8 ty := by
    rw [q1 16 24 (by norm_num)]
    norm_num
    exact pySlice_first 8 _ _ wt
  have s2 : pySlice (natToBitsBE 16 0x0015 ++ (natToBitsBE 8 ty ++ (fl ++ (List.replicate 7 false ++ (bytesToBits addr ++ (List.replicate 8 false ++ (natToBitsBE 8 tp ++ natToBitsBE 16 port))))))) 24 25 = fl := by
    rw [q2 24 25 (by norm_num)]
    norm_num
    exact pySlice_first 1 _ _ h2
  have s4 : pySlice (natToBitsBE 16 0x0015 ++ (natToBitsBE 8 ty ++ (fl ++ (List.replicate 7 false ++ (bytesToBits addr ++ (List.replicate 8 false ++ (natToBitsBE 8 tp ++ natToBitsBE 16 port))))))) 32 160 = bytesToBits addr := by
    rw [q4 32 160 (by norm_num)]
    norm_num
    exact pySlice_first 128 _ _ wa
  have s6 : pySlice (natToBitsBE 16 0x0015 ++ (natToBitsBE 8 ty ++ (fl ++ (List.replicate 7 false ++ (bytesToBits addr ++ (List.replicate 8 false ++ (natToBitsBE 8 tp ++ natToBitsBE 16 port))))))) 168 176 = natToBitsBE 8 tp := by
    rw [q6 168 176 (by norm_num)]
    norm_num
    exact pySlice_first 8 _ _ wp
  have s7 : pySlice (natToBitsBE 16 0x0015 ++ (natToBitsBE 8 ty ++ (fl ++ (List.replicate 7 false ++ (bytesToBits addr ++ (List.replicate 8 false ++ (natToBitsBE 8 tp ++ natToBitsBE 16 port))))))) 176 192 = natToBitsBE 16 port := by
    rw [q7 176 192 (by norm_num)]
    norm_num
    have hfull := pySlice_full (natToBitsBE 16 port)
    rw [wq] at hfull
    exact hfull
  rw [s1, s2, s4, s6, s7]
  rw [ba2int_bits 8 ty (by norm_num) h1, ba2int_bits 8 tp (by norm_num) h5,
    ba2int_bits 16 port (by norm_num) h6]
  have haddr : bitsToBytes (bytesToBits addr) = addr := by
    rw [bitsToBytes_bytesToBits]
    exact bytes_mod_id addr h4
  rw [haddr]
  simp only [except_bind_ok, except_pure_eq, except_bind_ok2]
  unfold IPv6Option.init
  rw [validateBitInt_ok _ _ _ h1, validateBitArr_ok _ _ _ h2,
    validateBitInt_ok _ _ _ h5, validateBitInt_ok _ _ _ h6]
  have hvaddr : validateIPv6Address addr = .ok () := by
    unfold validateIPv6Address
    rw [if_pos ⟨h3, by simpa [List.all_eq_true, decide_eq_true_iff] using h4⟩]
  rw [hvaddr]
  simp only [except_bind_ok, except_pure_eq, except_bind_ok2]

theorem int2ba_ok (v w : Nat) (h : v < 2 ^ w) :
    int2ba v w = .ok (natToBitsBE w v) := by
  unfold int2ba
  rw [if_pos h]

theorem packet_roundtrip (p : Someip.Packet) (h : p.Valid) :
    (Someip.Packet.encode p).bind Someip.Packet.decode = .ok p := by
  obtain ⟨sid, mid, cid, ssid, pv, iv, mt, rc, payload⟩ := p
  obtain ⟨h1, h2, h3, h4, h5, h6, h7, h8, h9, h10⟩ := h
  simp only at h1 h2 h3 h4 h5 h6 h7 h8 h9 h10
  have w1 : (natToBitsBE 16 sid).length = 16 := natToBitsBE_length 16 sid
  have w2 : (natToBitsBE 16 mid).length = 16 := natToBitsBE_length 16 mid
  have w3 : (natToBitsBE 32 (Someip.Packet.length ⟨sid, mid, cid, ssid, pv, iv, mt, rc, payload⟩)).length = 32 := natToBitsBE_length 32 _
  have w4 : (natToBitsBE 16 cid).length = 16 := natToBitsBE_length 16 cid
  have w5 : (natToBitsBE 16 ssid).length = 16 := natToBitsBE_length 16 ssid
  have w6 : (natToBitsBE 8 pv).length = 8 := natToBitsBE_length 8 pv
  have w7 : (natToBitsBE 8 iv).length = 8 := natToBitsBE_length 8 iv
  have w8 : (natToBitsBE 8 mt).length = 8 := natToBitsBE_length 8 mt
  have w9 : (natToBitsBE 8 rc).length = 8 := natToBitsBE_length 8 rc
  have wPB : (bytesToBits payload).length = 8 * payload.length := bytesToBits_length payload
  have henc : Someip.Packet.encode ⟨sid, mid, cid, ssid, pv, iv, mt, rc, payload⟩ =
      .ok (bitsToBytes (natToBitsBE 16 sid ++ (natToBitsBE 16 mid ++ (natToBitsBE 32 (Someip.Packet.length ⟨sid, mid, cid, ssid, pv, iv, mt, rc, payload⟩) ++ (natToBitsBE 16 cid ++ (natToBitsBE 16 ssid ++ (natToBitsBE 8 pv ++ (natToBitsBE 8 iv ++ (natToBitsBE 8 mt ++ natToBitsBE 8 rc)))))))) ++ payload) := by
    unfold Someip.Packet.encode
    simp only [Someip.Length.SERVICE_ID, Someip.Length.METHOD_ID,
      Someip.Length.LENGTH, Someip.Length.CLIENT_ID, Someip.Length.SESSION_ID,
      Someip.Length.PROTOCOL_VERSION, Someip.Length.INTERFACE_VERSION,
      Someip.Length.MESSAGE_TYPE, Someip.Length.RETURN_CODE]
    rw [int2ba_ok _ _ (show sid < 2 ^ 16 from h1),
      int2ba_ok _ _ (show mid < 2 ^ 16 from h2),
      int2ba_ok _ _ (show Someip.Packet.length ⟨sid, mid, cid, ssid, pv, iv, mt, rc, payload⟩ < 2 ^ 32 from h10),
      int2ba_ok _ _ (show cid < 2 ^ 16 from h3),
      int2ba_ok _ _ (show ssid < 2 ^ 16 from h4),
      int2ba_ok _ _ (show pv < 2 ^ 8 from h5),
      int2ba_ok _ _ (show iv < 2 ^ 8 from h6),
      int2ba_ok _ _ (show mt < 2 ^ 8 from h7),
      int2ba_ok _ _ (show rc < 2 ^ 8 from h8)]
    simp only [except_bind_ok, except_pure_eq]
    simp [List.append_assoc]
  rw [henc, except_bind_ok2]
  have hlenH : (natToBitsBE 16 sid ++ (natToBitsBE 16 mid ++ (natToBitsBE 32 (Someip.Packet.length ⟨sid, mid, cid, ssid, pv, iv, mt, rc, payload⟩) ++ (natToBitsBE 16 cid ++ (natToBitsBE 16 ssid ++ (natToBitsBE 8 pv ++ (natToBitsBE 8 iv ++ (natToBitsBE 8 mt ++ natToBitsBE 8 rc)))))))).length = 128 := by
    simp [natToBitsBE_length]
  have hbitsH := bytesToBits_bitsToBytes _ (hlenH ▸ (⟨16, rfl⟩ : (8:Nat) ∣ 128))
  have hbbser : bytesToBits (bitsToBytes (natToBitsBE 16 sid ++ (natToBitsBE 16 mid ++ (natToBitsBE 32 (Someip.Packet.length ⟨sid, mid, cid, ssid, pv, iv, mt, rc, payload⟩) ++ (natToBitsBE 16 cid ++ (natToBitsBE 16 ssid ++ (natToBitsBE 8 pv ++ (natToBitsBE 8 iv ++ (natToBitsBE 8 mt ++ natToBitsBE 8 rc)))))))) ++ payload) = natToBitsBE 16 sid ++ (natToBitsBE 16 mid ++ (natToBitsBE 32 (Someip.Packet.length ⟨sid, mid, cid, ssid, pv, iv, mt, rc, payload⟩) ++ (natToBitsBE 16 cid ++ (natToBitsBE 16 ssid ++ (natToBitsBE 8 pv ++ (natToBitsBE 8 iv ++ (natToBitsBE 8 mt ++ (natToBitsBE 8 rc ++ bytesToBits payload)))))))) := by
    rw [bytesToBits_append, hbitsH]
    simp [List.append_assoc]
  have hlenHP : (natToBitsBE 16 sid ++ (natToBitsBE 16 mid ++ (natToBitsBE 32 (Someip.Packet.length ⟨sid, mid, cid, ssid, pv, iv, mt, rc, payload⟩) ++ (natToBitsBE 16 cid ++ (natToBitsBE 16 ssid ++ (natToBitsBE 8 pv ++ (natToBitsBE 8 iv ++ (natToBitsBE 8 mt ++ (natToBitsBE 8 rc ++ bytesToBits payload))))))))).length = 128 + 8 * payload.length := by
    simp [natToBitsBE_length, bytesToBits_length]
    omega
  have hhdr : Someip.Packet.expectedHeaderLength = 128 := rfl
  unfold Someip.Packet.decode
  simp only [Someip.Length.SERVICE_ID, Someip.Length.METHOD_ID,
    Someip.Length.LENGTH, Someip.Length.CLIENT_ID, Someip.Length.SESSION_ID,
    Someip.Length.PROTOCOL_VERSION, Someip.Length.INTERFACE_VERSION,
    Someip.Length.MESSAGE_TYPE, Someip.Length.RETURN_CODE]
  rw [hbbser, hhdr]
  rw [if_neg (by rw [hlenHP]; omega)]
  rw [read_ok _ (0) 16 (by rw [hlenHP]; omega)]
  simp only [except_bind_ok]
  rw [read_ok _ (0 + 16) 16 (by rw [hlenHP]; omega)]
  simp only [except_bind_ok]
  rw [read_ok _ (0 + 16 + 16) 32 (by rw [hlenHP]; omega)]
  simp only [except_bind_ok]
  rw [read_ok _ (0 + 16 + 16 + 32) 16 (by rw [hlenHP]; omega)]
  simp only [except_bind_ok]
  rw [read_ok _ (0 + 16 + 16 + 32 + 16) 16 (by rw [hlenHP]; omega)]
  simp only [except_bind_ok]
  rw [read_ok _ (0 + 16 + 16 + 32 + 16 + 16) 8 (by rw [hlenHP]; omega)]
  simp only [except_bind_ok]
  rw [read_ok _ (0 + 16 + 16 + 32 + 16 + 16 + 8) 8 (by rw [hlenHP]; omega)]
  simp only [except_bind_ok]
  rw [read_ok _ (0 + 16 + 16 + 32 + 16 + 16 + 8 + 8) 8 (by rw [hlenHP]; omega)]
  simp only [except_bind_ok]
  rw [read_ok _ (0 + 16 + 16 + 32 + 16 + 16 + 8 + 8 + 8) 8 (by rw [hlenHP]; omega)]
  simp only [except_bind_ok]
  norm_num
  have q1 : ∀ a b : Nat, 16 ≤ a → pySlice (natToBitsBE 16 sid ++ (natToBitsBE 16 mid ++ (natToBitsBE 32 (Someip.Packet.length ⟨sid, mid, cid, ssid, pv, iv, mt, rc, payload⟩) ++ (natToBitsBE 16 cid ++ (natToBitsBE 16 ssid ++ (natToBitsBE 8 pv ++ (natToBitsBE 8 iv ++ (natToBitsBE 8 mt ++ (natToBitsBE 8 rc ++ bytesToBits payload))))))))) a b = pySlice (natToBitsBE 16 mid ++ (natToBitsBE 32 (Someip.Packet.length ⟨sid, mid, cid, ssid, pv, iv, mt, rc, payload⟩) ++ (natToBitsBE 16 cid ++ (natToBitsBE 16 ssid ++ (natToBitsBE 8 pv ++ (natToBitsBE 8 iv ++ (natToBitsBE 8 mt ++ (natToBitsBE 8 rc ++ bytesToBits payload)))))))) (a - 16) (b - 16) := fun a b ha => pySlice_peel 16 _ _ w1 a b ha
  have q2 : ∀ a b : Nat, 32 ≤ a → pySlice (natToBitsBE 16 sid ++ (natToBitsBE 16 mid ++ (natToBitsBE 32 (Someip.Packet.length ⟨sid, mid, cid, ssid, pv, iv, mt, rc, payload⟩) ++ (natToBitsBE 16 cid ++ (natToBitsBE 16 ssid ++ (natToBitsBE 8 pv ++ (natToBitsBE 8 iv ++ (natToBitsBE 8 mt ++ (natToBitsBE 8 rc ++ bytesToBits payload))))))))) a b = pySlice (natToBitsBE 32 (Someip.Packet.length ⟨sid, mid, cid, ssid, pv, iv, mt, rc, payload⟩) ++ (natToBitsBE 16 cid ++ (natToBitsBE 16 ssid ++ (natToBitsBE 8 pv ++ (natToBitsBE 8 iv ++ (natToBitsBE 8 mt ++ (natToBitsBE 8 rc ++ bytesToBits payload))))))) (a - 32) (b - 32) := by
    intro a b ha
    rw [q1 a b (by omega), pySlice_peel 16 _ _ w2 (a - 16) (b - 16) (by omega)]
    congr 1
  have q3 : ∀ a b : Nat, 64 ≤ a → pySlice (natToBitsBE 16 sid ++ (natToBitsBE 16 mid ++ (natToBitsBE 32 (Someip.Packet.length ⟨sid, mid, cid, ssid, pv, iv, mt, rc, payload⟩) ++ (natToBitsBE 16 cid ++ (natToBitsBE 16 ssid ++ (natToBitsBE 8 pv ++ (natToBitsBE 8 iv ++ (natToBitsBE 8 mt ++ (natToBitsBE 8 rc ++ bytesToBits payload))))))))) a b = pySlice (natToBitsBE 16 cid ++ (natToBitsBE 16 ssid ++ (natToBitsBE 8 pv ++ (natToBitsBE 8 iv ++ (natToBitsBE 8 mt ++ (natToBitsBE 8 rc ++ bytesToBits payload)))))) (a - 64) (b - 64) := by
    intro a b ha
    rw [q2 a b (by omega), pySlice_peel 32 _ _ w3 (a - 32) (b - 32) (by omega)]
    congr 1
  have q4 : ∀ a b : Nat, 80 ≤ a → pySlice (natToBitsBE 16 sid ++ (natToBitsBE 16 mid ++ (natToBitsBE 32 (Someip.Packet.length ⟨sid, mid, cid, ssid, pv, iv, mt, rc, payload⟩) ++ (natToBitsBE 16 cid ++ (natToBitsBE 16 ssid ++ (natToBitsBE 8 pv ++ (natToBitsBE 8 iv ++ (natToBitsBE 8 mt ++ (natToBitsBE 8 rc ++ bytesToBits payload))))))))) a b = pySlice (natToBitsBE 16 ssid ++ (natToBitsBE 8 pv ++ (natToBitsBE 8 iv ++ (natToBitsBE 8 mt ++ (natToBitsBE 8 rc ++ bytesToBits payload))))) (a - 80) (b - 80) := by
    intro a b ha
    rw [q3 a b (by omega), pySlice_peel 16 _ _ w4 (a - 64) (b - 64) (by omega)]
    congr 1
  have q5 : ∀ a b : Nat, 96 ≤ a → pySlice (natToBitsBE 16 sid ++ (natToBitsBE 16 mid ++ (natToBitsBE 32 (Someip.Packet.length ⟨sid, mid, cid, ssid, pv, iv, mt, rc, payload⟩) ++ (natToBitsBE 16 cid ++ (natToBitsBE 16 ssid ++ (natToBitsBE 8 pv ++ (natToBitsBE 8 iv ++ (natToBitsBE 8 mt ++ (natToBitsBE 8 rc ++ bytesToBits payload))))))))) a b = pySlice (natToBitsBE 8 pv ++ (natToBitsBE 8 iv ++ (natToBitsBE 8 mt ++ (natToBitsBE 8 rc ++ bytesToBits payload)))) (a - 96) (b - 96) := by
    intro a b ha
    rw [q4 a b (by omega), pySlice_peel 16 _ _ w5 (a - 80) (b - 80) (by omega)]
    congr 1
  have q6 : ∀ a b : Nat, 104 ≤ a → pySlice (natToBitsBE 16 sid ++ (natToBitsBE 16 mid ++ (natToBitsBE 32 (Someip.Packet.length ⟨sid, mid, cid, ssid, pv, iv, mt, rc, payload⟩) ++ (natToBitsBE 16 cid ++ (natToBitsBE 16 ssid ++ (natToBitsBE 8 pv ++ (natToBitsBE 8 iv ++ (natToBitsBE 8 mt ++ (natToBitsBE 8 rc ++ bytesToBits payload))))))))) a b = pySlice (natToBitsBE 8 iv ++ (natToBitsBE 8 mt ++ (natToBitsBE 8 rc ++ bytesToBits payload))) (a - 104) (b - 104) := by
    intro a b ha
    rw [q5 a b (by omega), pySlice_peel 8 _ _ w6 (a - 96) (b - 96) (by omega)]
    congr 1
  have q7 : ∀ a b : Nat, 112 ≤ a → pySlice (natToBitsBE 16 sid ++ (natToBitsBE 16 mid ++ (natToBitsBE 32 (Someip.Packet.length ⟨sid, mid, cid, ssid, pv, iv, mt, rc, payload⟩) ++ (natToBitsBE 16 cid ++ (natToBitsBE 16 ssid ++ (natToBitsBE 8 pv ++ (natToBitsBE 8 iv ++ (natToBitsBE 8 mt ++ (natToBitsBE 8 rc ++ bytesToBits payload))))))))) a b = pySlice (natToBitsBE 8 mt ++ (natToBitsBE 8 rc ++ bytesToBits payload)) (a - 112) (b - 112) := by
    intro a b ha
    rw [q6 a b (by omega), pySlice_peel 8 _ _ w7 (a - 104) (b - 104) (by omega)]
    congr 1
  have q8 : ∀ a b : Nat, 120 ≤ a → pySlice (natToBitsBE 16 sid ++ (natToBitsBE 16 mid ++ (natToBitsBE 32 (Someip.Packet.length ⟨sid, mid, cid, ssid, pv, iv, mt, rc, payload⟩) ++ (natToBitsBE 16 cid ++ (natToBitsBE 16 ssid ++ (natToBitsBE 8 pv ++ (natToBitsBE 8 iv ++ (natToBitsBE 8 mt ++ (natToBitsBE 8 rc ++ bytesToBits payload))))))))) a b = pySlice (natToBitsBE 8 rc ++ bytesToBits payload) (a - 120) (b - 120) := by
    intro a b ha
    rw [q7 a b (by omega), pySlice_peel 8 _ _ w8 (a - 112) (b - 112) (by omega)]
    congr 1
  have q9 : ∀ a b : Nat, 128 ≤ a → pySlice (natToBitsBE 16 sid ++ (natToBitsBE 16 mid ++ (natToBitsBE 32 (Someip.Packet.length ⟨sid, mid, cid, ssid, pv, iv, mt, rc, payload⟩) ++ (natToBitsBE 16 cid ++ (natToBitsBE 16 ssid ++ (natToBitsBE 8 pv ++ (natToBitsBE 8 iv ++ (natToBitsBE 8 mt ++ (natToBitsBE 8 rc ++ bytesToBits payload))))))))) a b = pySlice (bytesToBits payload) (a - 128) (b - 128) := by
    intro a b ha
    rw [q8 a b (by omega), pySlice_peel 8 _ _ w9 (a - 120) (b - 120) (by omega)]
    congr 1
  have s1 : pySlice (natToBitsBE 16 sid ++ (natToBitsBE 16 mid ++ (natToBitsBE 32 (Someip.Packet.length ⟨sid, mid, cid, ssid, pv, iv, mt, rc, payload⟩) ++ (natToBitsBE 16 cid ++ (natToBitsBE 16 ssid ++ (natToBitsBE 8 pv ++ (natToBitsBE 8 iv ++ (natToBitsBE 8 mt ++ (natToBitsBE 8 rc ++ bytesToBits payload))))))))) 0 16 = natToBitsBE 16 sid := pySlice_first 16 _ _ w1
  have s2 : pySlice (natToBitsBE 16 sid ++ (natToBitsBE 16 mid ++ (natToBitsBE 32 (Someip.Packet.length ⟨sid, mid, cid, ssid, pv, iv, mt, rc, payload⟩) ++ (natToBitsBE 16 cid ++ (natToBitsBE 16 ssid ++ (natToBitsBE 8 pv ++ (natToBitsBE 8 iv ++ (natToBitsBE 8 mt ++ (natToBitsBE 8 rc ++ bytesToBits payload))))))))) 16 32 = natToBitsBE 16 mid := by
    rw [q1 16 32 (by norm_num)]
    norm_num
    exact pySlice_first 16 _ _ w2
  have s4 : pySlice (natToBitsBE 16 sid ++ (natToBitsBE 16 mid ++ (natToBitsBE 32 (Someip.Packet.length ⟨sid, mid, cid, ssid, pv, iv, mt, rc, payload⟩) ++ (natToBitsBE 16 cid ++ (natToBitsBE 16 ssid ++ (natToBitsBE 8 pv ++ (natToBitsBE 8 iv ++ (natToBitsBE 8 mt ++ (natToBitsBE 8 rc ++ bytesToBits payload))))))))) 64 80 = natToBitsBE 16 cid := by
    rw [q3 64 80 (by norm_num)]
    norm_num
    exact pySlice_first 16 _ _ w4
  have s5 : pySlice (natToBitsBE 16 sid ++ (natToBitsBE 16 mid ++ (natToBitsBE 32 (Someip.Packet.length ⟨sid, mid, cid, ssid, pv, iv, mt, rc, payload⟩) ++ (natToBitsBE 16 cid ++ (natToBitsBE 16 ssid ++ (natToBitsBE 8 pv ++ (natToBitsBE 8 iv ++ (natToBitsBE 8 mt ++ (natToBitsBE 8 rc ++ bytesToBits payload))))))))) 80 96 = natToBitsBE 16 ssid := by
    rw [q4 80 96 (by norm_num)]
    norm_num
    exact pySlice_first 16 _ _ w5
  have s6 : pySlice (natToBitsBE 16 sid ++ (natToBitsBE 16 mid ++ (natToBitsBE 32 (Someip.Packet.length ⟨sid, mid, cid, ssid, pv, iv, mt, rc, payload⟩) ++ (natToBitsBE 16 cid ++ (natToBitsBE 16 ssid ++ (natToBitsBE 8 pv ++ (natToBitsBE 8 iv ++ (natToBitsBE 8 mt ++ (natToBitsBE 8 rc ++ bytesToBits payload))))))))) 96 104 = natToBitsBE 8 pv := by
    rw [q5 96 104 (by norm_num)]
    norm_num
    exact pySlice_first 8 _ _ w6
  have s7 : pySlice (natToBitsBE 16 sid ++ (natToBitsBE 16 mid ++ (natToBitsBE 32 (Someip.Packet.length ⟨sid, mid, cid, ssid, pv, iv, mt, rc, payload⟩) ++ (natToBitsBE 16 cid ++ (natToBitsBE 16 ssid ++ (natToBitsBE 8 pv ++ (natToBitsBE 8 iv ++ (natToBitsBE 8 mt ++ (natToBitsBE 8 rc ++ bytesToBits payload))))))))) 104 112 = natToBitsBE 8 iv := by
    rw [q6 104 112 (by norm_num)]
    norm_num
    exact pySlice_first 8 _ _ w7
  have s8 : pySlice (natToBitsBE 16 sid ++ (natToBitsBE 16 mid ++ (natToBitsBE 32 (Someip.Packet.length ⟨sid, mid, cid, ssid, pv, iv, mt, rc, payload⟩) ++ (natToBitsBE 16 cid ++ (natToBitsBE 16 ssid ++ (natToBitsBE 8 pv ++ (natToBitsBE 8 iv ++ (natToBitsBE 8 mt ++ (natToBitsBE 8 rc ++ bytesToBits payload))))))))) 112 120 = natToBitsBE 8 mt := by
    rw [q7 112 120 (by norm_num)]
    norm_num
    exact pySlice_first 8 _ _ w8
  have s9 : pySlice (natToBitsBE 16 sid ++ (natToBitsBE 16 mid ++ (natToBitsBE 32 (Someip.Packet.length ⟨sid, mid, cid, ssid, pv, iv, mt, rc, payload⟩) ++ (natToBitsBE 16 cid ++ (natToBitsBE 16 ssid ++ (natToBitsBE 8 pv ++ (natToBitsBE 8 iv ++ (natToBitsBE 8 mt ++ (natToBitsBE 8 rc ++ bytesToBits payload))))))))) 120 128 = natToBitsBE 8 rc := by
    rw [q8 120 128 (by norm_num)]
    norm_num
    exact pySlice_first 8 _ _ w9
  have hpay : pySlice (natToBitsBE 16 sid ++ (natToBitsBE 16 mid ++ (natToBitsBE 32 (Someip.Packet.length ⟨sid, mid, cid, ssid, pv, iv, mt, rc, payload⟩) ++ (natToBitsBE 16 cid ++ (natToBitsBE 16 ssid ++ (natToBitsBE 8 pv ++ (natToBitsBE 8 iv ++ (natToBitsBE 8 mt ++ (natToBitsBE 8 rc ++ bytesToBits payload))))))))) 128 (16 + (16 + (32 + (16 + (16 + (8 + (8 + (8 + (8 + 8 * payload.length))))))))) = bytesToBits payload := by
    rw [q9 128 (16 + (16 + (32 + (16 + (16 + (8 + (8 + (8 + (8 + 8 * payload.length))))))))) (by norm_num)]
    have hfull := pySlice_full (bytesToBits payload)
    rw [bytesToBits_length] at hfull
    rw [show (128:Nat) - 128 = 0 by norm_num,
      show (16 + (16 + (32 + (16 + (16 + (8 + (8 + (8 + (8 + 8 * payload.length))))))))) - 128 = 8 * payload.length by omega]
    exact hfull
  simp only [w1, w2, w3, w4, w5, w6, w7, w8, w9, wPB]
  rw [s1, s2, s4, s5, s6, s7, s8, s9, hpay]
  rw [ba2int_bits 16 sid (by norm_num) h1, ba2int_bits 16 mid (by norm_num) h2,
    ba2int_bits 16 cid (by norm_num) h3, ba2int_bits 16 ssid (by norm_num) h4,
    ba2int_bits 8 pv (by norm_num) h5, ba2int_bits 8 iv (by norm_num) h6,
    ba2int_bits 8 mt (by norm_num) h7, ba2int_bits 8 rc (by norm_num) h8]
  have hpay2 : bitsToBytes (bytesToBits payload) = payload := by
    rw [bitsToBytes_bytesToBits]
    exact bytes_mod_id payload h9
  rw [hpay2]
  simp only [except_bind_ok, except_pure_eq, except_bind_ok2]
  unfold Someip.Packet.init
  rfl


namespace Core

theorem alookup_none_not_mem {α β : Type} [DecidableEq α]
    (m : List (α × β)) (k : α) (h : alookup m k = none) :
    k ∉ m.map Prod.fst := by
  induction m with
  | nil => simp
  | cons p t ih =>
    obtain ⟨a, b⟩ := p
    unfold alookup at h
    by_cases hak : a = k
    · simp [hak] at h
    · simp only [if_neg hak] at h
      simp only [List.map_cons, List.mem_cons]
      push_neg
      exact ⟨fun hk => hak hk.symm, ih h⟩

theorem aset_not_mem {α β : Type} [DecidableEq α]
    (m : List (α × β)) (k : α) (v : β) (h : alookup m k = none) :
    aset m k v = m ++ [(k, v)] := by
  induction m with
  | nil => rfl
  | cons p t ih =>
    obtain ⟨a, b⟩ := p
    unfold alookup at h
    unfold aset
    by_cases hak : a = k
    · simp [hak] at h
    · simp only [if_neg hak] at h ⊢
      rw [ih h]
      simp

theorem aerase_perm {α β : Type} [DecidableEq α]
    (m : List (α × β)) (k : α) (c : β) (h : alookup m k = some c) :
    m.Perm ((k, c) :: aerase m k) := by
  induction m with
  | nil => simp [alookup] at h
  | cons p t ih =>
    obtain ⟨a, b⟩ := p
    unfold alookup at h
    unfold aerase
    by_cases hak : a = k
    · simp only [if_pos hak] at h ⊢
      obtain rfl : b = c := by simpa using h
      subst hak
      exact List.Perm.refl _
    · simp only [if_neg hak] at h ⊢
      exact ((ih h).cons (a, b)).trans (List.Perm.swap (k, c) (a, b) (aerase t k))

theorem inv_mkInit : Allocator.Inv Allocator.mkInit := by
  unfold Allocator.Inv Allocator.mkInit
  refine ⟨?_, ?_, ?_⟩
  · simpa using List.nodup_range' 1 65534 1 (by norm_num)
  · intro c hc
    simp only [List.map_nil, List.nil_append] at hc
    rw [List.mem_range'_1] at hc
    omega
  · simp

theorem get_session_id_map (s : Allocator) (c : Nat) :
    ((s.get_session_id c).2).address_client_map = s.address_client_map := by
  unfold Allocator.get_session_id countNext
  dsimp only
  split <;> rfl

theorem get_session_id_pool (s : Allocator) (c : Nat) :
    ((s.get_session_id c).2).client_pool = s.client_pool := by
  unfold Allocator.get_session_id countNext
  dsimp only
  split <;> rfl

theorem step_inv (s : Allocator) (op : AllocOp) (h : s.Inv) :
    (s.step op).Inv := by
  obtain ⟨hnd, hbd, hkey⟩ := h
  cases op with
  | getSessionId c =>
    unfold Allocator.step
    dsimp only
    exact ⟨by rw [get_session_id_map, get_session_id_pool]; exact hnd,
      by rw [get_session_id_map, get_session_id_pool]; exact hbd,
      by rw [get_session_id_map]; exact hkey⟩
  | release =>
    exact inv_mkInit
  | getClientId a =>
    unfold Allocator.step Allocator.get_client_id
    dsimp only
    cases halk : alookup s.address_client_map a with
    | some cid => exact ⟨hnd, hbd, hkey⟩
    | none =>
      cases hpool : s.client_pool with
      | nil => exact ⟨hnd, hbd, hkey⟩
      | cons c rest =>
        rw [hpool] at hnd hbd
        have hset := aset_not_mem s.address_client_map a c halk
        refine ⟨?_, ?_, ?_⟩
        · simp only [hset, List.map_append, List.map_cons, List.map_nil,
            List.append_assoc, List.singleton_append]
          exact hnd
        · intro x hx
          apply hbd
          simp only [hset, List.map_append, List.map_cons, List.map_nil,
            List.mem_append, List.mem_cons, List.mem_singleton] at hx ⊢
          tauto
        · simp only [hset, List.map_append, List.map_cons, List.map_nil]
          rw [List.nodup_append]
          refine ⟨hkey, List.nodup_singleton a, ?_⟩
          intro y hy hy1
          simp only [List.mem_singleton] at hy1
          subst hy1
          exact alookup_none_not_mem _ _ halk hy
  | releaseClientId a =>
    unfold Allocator.step Allocator.release_client_id
    dsimp only
    cases halk : alookup s.address_client_map a with
    | none => exact ⟨hnd, hbd, hkey⟩
    | some cid =>
      have hperm := aerase_perm s.address_client_map a cid halk
      have hvals : (s.address_client_map.map Prod.snd).Perm
          (cid :: (aerase s.address_client_map a).map Prod.snd) := by
        simpa using hperm.map Prod.snd
      have hkeys : (s.address_client_map.map Prod.fst).Perm
          (a :: (aerase s.address_client_map a).map Prod.fst) := by
        simpa using hperm.map Prod.fst
      have t1 : ((aerase s.address_client_map a).map Prod.snd ++
          (s.client_pool ++ [cid])).Perm
          ((aerase s.address_client_map a).map Prod.snd ++
            (cid :: s.client_pool)) :=
        List.Perm.append_left _ (List.perm_append_singleton cid s.client_pool)
      have t2 : ((aerase s.address_client_map a).map Prod.snd ++
          (cid :: s.client_pool)).Perm
          (cid :: ((aerase s.address_client_map a).map Prod.snd ++
            s.client_pool)) :=
        List.perm_middle
      have t4 : ((cid :: (aerase s.address_client_map a).map Prod.snd) ++
          s.client_pool).Perm
          (s.address_client_map.map Prod.snd ++ s.client_pool) :=
        List.Perm.append_right s.client_pool hvals.symm
      have hchain : ((aerase s.address_client_map a).map Prod.snd ++
          (s.client_pool ++ [cid])).Perm
          (s.address_client_map.map Prod.snd ++ s.client_pool) :=
        (t1.trans t2).trans t4
      refine ⟨?_, ?_, ?_⟩
      · exact hchain.symm.nodup hnd
      · intro x hx
        exact hbd x (hchain.mem_iff.mp hx)
      · have := (hkeys.nodup hkey)
        exact (List.nodup_cons.mp this).2

theorem runOps_inv (ops : List AllocOp) : (Allocator.runOps ops).Inv := by
  unfold Allocator.runOps
  have hgen : ∀ (l : List AllocOp) (s : Allocator), s.Inv →
      (l.foldl Allocator.step s).Inv := by
    intro l
    induction l with
    | nil => exact fun s hs => hs
    | cons op t ih => exact fun s hs => ih _ (step_inv s op hs)
  exact hgen ops Allocator.mkInit inv_mkInit

end Core

/-- C1: the claim says the wire length field of a base-protocol packet equals
8 + len(payload) and gives a worked example with length field 0x0000000A.  The
code computes length = expected_header_length() // 8 + len(payload) =
16 + len(payload), so encoding the example packet yields length field
0x00000012 — byte 7 is 0x12, not 0x0A.  This theorem evaluates the encoder at
the example input and states the general length formula the code implements. -/
theorem spec_c1_example_length_field :
    Someip.Packet.encode
        ⟨0x1234, 0x0421, 0x0001, 0x0001, 1, 1, 0x00, 0x00, [0x01, 0x02]⟩ =
      .ok [0x12, 0x34, 0x04, 0x21, 0x00, 0x00, 0x00, 0x12,
        0x00, 0x01, 0x00, 0x01, 0x01, 0x01, 0x00, 0x00, 0x01, 0x02] ∧
    (∀ p : Someip.Packet, p.length = 16 + p.payload.length) := by
  constructor
  · decide
  · intro p
    rfl

/-- C2: the claim says consecutive get_session_id calls for a fixed client
return 0, 1, 2, …, 0xFFFF, 0.  The code calls next() twice per invocation, so
a fresh client receives 1, 3, 5, …; this theorem evaluates the first three
calls on a fresh allocator (returning 1, 3, 5) and shows the wrap behaviour:
from a counter pending 0xFFFE the call returns 0xFFFF and the following call
returns 0. -/
theorem spec_c2_session_id_sequence :
    (Core.Allocator.mkInit.get_session_id 7).1 = 1 ∧
    ((Core.Allocator.mkInit.get_session_id 7).2.get_session_id 7).1 = 3 ∧
    (((Core.Allocator.mkInit.get_session_id 7).2.get_session_id 7).2.get_session_id
      7).1 = 5 ∧
    (Core.Allocator.get_session_id ⟨[], [], [(7, 0xFFFE)]⟩ 7).1 = 0xFFFF ∧
    ((Core.Allocator.get_session_id ⟨[], [], [(7, 0xFFFE)]⟩ 7).2.get_session_id
      7).1 = 0 := by
  refine ⟨rfl, rfl, rfl, by decide, by decide⟩

/-- C3: decode after encode reproduces every validly constructed base packet,
service entry, eventgroup entry, IPv4 option and IPv6 option field-for-field
(payload and address fields byte-for-byte). -/
theorem spec_c3_roundtrip :
    (∀ p : Someip.Packet, p.Valid →
      (Someip.Packet.encode p).bind Someip.Packet.decode = .ok p) ∧
    (∀ e : ServiceEntry, e.Valid →
      (ServiceEntry.encode e).bind ServiceEntry.decode = .ok e) ∧
    (∀ e : EventgroupEntry, e.Valid →
      (EventgroupEntry.encode e).bind EventgroupEntry.decode = .ok e) ∧
    (∀ o : IPv4Option, o.Valid →
      (IPv4Option.encode o).bind IPv4Option.decode = .ok o) ∧
    (∀ o : IPv6Option, o.Valid →
      (IPv6Option.encode o).bind IPv6Option.decode = .ok o) :=
  ⟨packet_roundtrip, serviceEntry_roundtrip, eventgroupEntry_roundtrip,
    ipv4Option_roundtrip, ipv6Option_roundtrip⟩

/-- Witness for C3: the round trip evaluated at one concrete valid value of
each of the five shapes. -/
theorem spec_c3_roundtrip_witness :
    (Someip.Packet.encode ⟨0x1234, 0x0421, 1, 1, 1, 1, 0, 0, [1, 2]⟩).bind
      Someip.Packet.decode = .ok ⟨0x1234, 0x0421, 1, 1, 1, 1, 0, 0, [1, 2]⟩ ∧
    (ServiceEntry.encode ⟨1, 2, 3, [true, false, true, false],
      [false, true, true, true], 0x1234, 0x5678, 5, 0xFF00, 0xDEADBEEF⟩).bind
      ServiceEntry.decode = .ok ⟨1, 2, 3, [true, false, true, false],
      [false, true, true, true], 0x1234, 0x5678, 5, 0xFF00, 0xDEADBEEF⟩ ∧
    (EventgroupEntry.encode ⟨6, 2, 3, [true, false, true, false],
      [false, true, true, true], 0x1234, 0x5678, 5, 0xFF00,
      List.replicate 12 true, [true, true, false, false], 0xBEEF⟩).bind
      EventgroupEntry.decode = .ok ⟨6, 2, 3, [true, false, true, false],
      [false, true, true, true], 0x1234, 0x5678, 5, 0xFF00,
      List.replicate 12 true, [true, true, false, false], 0xBEEF⟩ ∧
    (IPv4Option.encode ⟨4, [true], [192, 168, 0, 1], 6, 30509⟩).bind
      IPv4Option.decode = .ok ⟨4, [true], [192, 168, 0, 1], 6, 30509⟩ ∧
    (IPv6Option.encode ⟨6, [false],
      [0, 1, 2, 3, 4, 5, 6, 7, 8, 9, 10, 11, 12, 13, 14, 15], 17,
      30509⟩).bind IPv6Option.decode = .ok ⟨6, [false],
      [0, 1, 2, 3, 4, 5, 6, 7, 8, 9, 10, 11, 12, 13, 14, 15], 17, 30509⟩ :=
  ⟨spec_c3_roundtrip.1 _ (by decide), spec_c3_roundtrip.2.1 _ (by decide),
    spec_c3_roundtrip.2.2.1 _ (by decide),
    spec_c3_roundtrip.2.2.2.1 _ (by decide),
    spec_c3_roundtrip.2.2.2.2 _ (by decide)⟩

/-- C4: the claim says the service-discovery wire length field equals
20 + E + O (true: first conjunct, and the example encodes it as 0x00000024 =
36 for E = 16, O = 0) and that decode recovers E and O exactly.  The second
half fails: decode rejects any input whose byte length is not exactly 28, so
the 44-byte encoding of a packet with one 16-byte entry is not decodable. -/
theorem spec_c4_sd_length_field_and_decode :
    (∀ p : SomeipSd.Packet,
      p.length = 20 + p.entries_array.length + p.options_array.length) ∧
    (SomeipSd.Packet.encode
      ⟨0, 0, 0, 0, 1, 1, 0, 0, 0, List.replicate 16 0, []⟩).map
      (fun s => (pySlice s 4 8, s.length)) = .ok ([0, 0, 0, 36], 44) ∧
    (SomeipSd.Packet.encode
      ⟨0, 0, 0, 0, 1, 1, 0, 0, 0, List.replicate 16 0, []⟩).bind
      SomeipSd.Packet.decode = .error .invalidEntryLength := by
  refine ⟨fun p => rfl, by decide, by decide⟩

/-- C5: the claim says service-discovery decode fails exactly for inputs
shorter than the minimum header and otherwise slices exactly the declared
array bytes, failing rather than clamping on overrun.  The code instead
rejects every input whose length differs from 28 (also longer, well-formed
ones), and inside a 28-byte input it adds the declared byte length to a bit
offset and silently clamps: with a declared entries length of 16 it happily
returns a 2-byte entries array. -/
theorem spec_c5_sd_decode_length_handling :
    SomeipSd.Packet.decode (List.replicate 27 0) = .error .invalidEntryLength ∧
    SomeipSd.Packet.decode (List.replicate 29 0) = .error .invalidEntryLength ∧
    SomeipSd.Packet.decode
      (List.replicate 20 0 ++ [0, 0, 0, 16] ++ [1, 2, 0, 0]) =
      .ok ⟨0, 0, 0, 0, 0, 0, 0, 0, 0, [1, 2], []⟩ := by
  refine ⟨by decide, by decide, by decide⟩

/-- Counterexample for C6: constructing a base-protocol packet with
service_id = 0x10000 = 2^16 (too wide for 16 bits) succeeds — the constructor
stores the value verbatim instead of failing with a FieldRangeError. -/
theorem spec_c6_counterexample :
    Someip.Packet.init 65536 0 0 0 0 0 0 0 [] =
      .ok ⟨65536, 0, 0, 0, 0, 0, 0, 0, []⟩ := rfl

/-- C6 as amended: base-protocol Packet construction performs no bit-width
validation at all — any integer field values are accepted and stored verbatim,
identically for direct construction and for construction inside decode (both
call the same constructor); an out-of-range field only fails later, at encode
time, when int2ba overflows. -/
theorem spec_c6_construction_unvalidated :
    (∀ (a1 a2 a3 a4 a5 a6 a7 a8 : Nat) (pl : List Nat),
      Someip.Packet.init a1 a2 a3 a4 a5 a6 a7 a8 pl =
        .ok ⟨a1, a2, a3, a4, a5, a6, a7, a8, pl⟩) ∧
    Someip.Packet.encode ⟨65536, 0, 0, 0, 0, 0, 0, 0, []⟩ =
      .error .overflow :=
  ⟨fun _ _ _ _ _ _ _ _ _ => rfl, by decide⟩

/-- C7: base-protocol decode on a 15-byte buffer fails with the truncated
input error (ValueError "Invalid SOME/IP header length"), and constructing a
Service entry with major_version = 256 fails with the field range error naming
Major Version. -/
theorem spec_c7_rejection :
    Someip.Packet.decode (List.replicate 15 0) = .error .invalidHeader ∧
    ServiceEntry.init 0 0 0 (List.replicate 4 false) (List.replicate 4 false)
      0 0 256 0 0 = .error (.fieldRange "Major Version") := by
  refine ⟨by decide, by decide⟩

/-- C8: after any sequence of allocator operations from the initial state, the
client ids currently assigned to registered addresses are pairwise distinct
and each lies in the range 1 to 0xFFFE. -/
theorem spec_c8_allocator_uniqueness :
    ∀ ops : List Core.AllocOp,
      ((Core.Allocator.runOps ops).address_client_map.map Prod.snd).Nodup ∧
      (∀ pr ∈ (Core.Allocator.runOps ops).address_client_map,
        1 ≤ pr.2 ∧ pr.2 ≤ 0xFFFE) := by
  intro ops
  obtain ⟨hnd, hbd, _⟩ := Core.runOps_inv ops
  refine ⟨hnd.of_append_left, ?_⟩
  intro pr hpr
  exact hbd pr.2 (by
    simp only [List.mem_append]
    exact Or.inl (List.mem_map_of_mem Prod.snd hpr))

/-- C9: for a reader over bits of length L at index i, read n with
n ≤ L - i returns exactly the next n bits (a slice of length n) and advances
the index to i + n; read n with n > L - i fails with the range error, leaving
no reader state behind (the functional model returns no successor state, and
the caller's reader still has index i ≤ L). -/
theorem spec_c9_bit_reader_read :
    ∀ (bits : List Bool) (i n : Nat), i ≤ bits.length →
      (n ≤ bits.length - i →
        Utils.BitReader.read ⟨bits, i⟩ n =
          .ok (pySlice bits i (i + n), ⟨bits, i + n⟩) ∧
        (pySlice bits i (i + n)).length = n) ∧
      (n > bits.length - i →
        Utils.BitReader.read ⟨bits, i⟩ n = .error .indexOutOfRange) := by
  intro bits i n hi
  constructor
  · intro hn
    refine ⟨read_ok bits i n (by omega), ?_⟩
    unfold pySlice
    rw [List.length_take, List.length_drop]
    omega
  · intro hn
    exact read_err bits i n (by omega)

/-- Witness for C9: a concrete in-bounds read and a concrete out-of-bounds
read on a three-bit sequence at index 1. -/
theorem spec_c9_bit_reader_read_witness :
    Utils.BitReader.read ⟨[true, false, true], 1⟩ 2 =
      .ok ([false, true], ⟨[true, false, true], 3⟩) ∧
    Utils.BitReader.read ⟨[true, false, true], 1⟩ 3 =
      .error .indexOutOfRange := by
  constructor
  · have h :=
      ((spec_c9_bit_reader_read [true, false, true] 1 2 (by decide)).1
        (by decide)).1
    rw [h]
    decide
  · exact (spec_c9_bit_reader_read [true, false, true] 1 3 (by decide)).2
      (by decide)

/-- C10: get_session_id never fails for a client id absent from the session
map (never assigned, or released): the defaultdict materialises a fresh
counter and the call returns deterministically, exactly as on a fresh
allocator, referencing no stale state.  However the returned value is 1, the
second value drawn from the fresh counter — the counter's first issued value
is 0 (countNext 0 yields 0) and is discarded by the double-advance bug. -/
theorem spec_c10_unknown_client_fresh_counter :
    ∀ (s : Core.Allocator) (c : Nat),
      Core.alookup s.client_session_map c = none →
      (s.get_session_id c).1 = 1 ∧
      (s.get_session_id c).1 = (Core.Allocator.mkInit.get_session_id c).1 ∧
      (Core.countNext 0).1 = 0 := by
  intro s c h
  have h1 : (s.get_session_id c).1 = 1 := by
    unfold Core.Allocator.get_session_id Core.countNext
    rw [h]
    rfl
  have h2 : (Core.Allocator.mkInit.get_session_id c).1 = 1 := rfl
  exact ⟨h1, h1.trans h2.symm, rfl⟩

/-- Witness for C10: client id 42 is unknown to an allocator that holds a
counter only for client 5; the call returns 1 (not the fresh counter's first
value 0) and matches the fresh-allocator result. -/
theorem spec_c10_unknown_client_witness :
    Core.alookup ((⟨[], [], [(5, 100)]⟩ : Core.Allocator).client_session_map)
      42 = none ∧
    ((⟨[], [], [(5, 100)]⟩ : Core.Allocator).get_session_id 42).1 = 1 :=
  ⟨by decide,
    (spec_c10_unknown_client_fresh_counter ⟨[], [], [(5, 100)]⟩ 42
      (by decide)).1⟩
